import Mathlib

/-!
Shallow embedding of the interactive TUI selection engine of the
`claude-vibe` repository (`src/tui.rs`, with the producing side from
`src/commands/cleanup.rs` / `src/commands/continue_session.rs` and the
status rendering from `src/commands/status.rs`).

Rust `usize` values are modelled as `Nat`; `saturating_sub` coincides with
truncated `Nat` subtraction.  `Vec<T>` is `List T`, `Option<T>` is
`Option T`.  `Vec::get_mut(index)` followed by an in-place mutation is
modelled as `List.get?` followed by `List.set` (both are no-ops out of
bounds, exactly as `get_mut` returning `None` makes the Rust body a no-op).
-/

set_option maxHeartbeats 1000000

/-- Modelled from the spec: the struct `WorktreeStatus` lives in a part of
`src/git.rs` not included in the sources; its fields are taken from the
spec's data model (§3) and match every field access performed by the code
under `src/` (`is_orphaned`, `has_uncommitted`, `has_unpushed`,
`untracked_files`, `lines_added`, `lines_deleted`, `commits_ahead`). -/
structure WorktreeStatus where
  is_orphaned : Bool
  has_uncommitted : Bool
  has_unpushed : Bool
  modified_files : Nat
  untracked_files : Nat
  lines_added : Nat
  lines_deleted : Nat
  commits_ahead : Nat
deriving DecidableEq, Repr

/-- Summary loading state (`enum SummaryState` in `src/tui.rs`). -/
inductive SummaryState where
  | none
  | queued
  | summarizing
  | done (text : String)
deriving DecidableEq, Repr

/-- Rust `item.summary_state == SummaryState::None`. -/
def SummaryState.isNoneState : SummaryState → Bool
  | .none => true
  | _ => false

/-- Rust `matches!(state, SummaryState::Queued | SummaryState::Summarizing)`. -/
def SummaryState.isPending : SummaryState → Bool
  | .queued => true
  | .summarizing => true
  | _ => false

/-- Numeric rank of a summary state along the intended lifecycle
`None → Queued → Summarizing → Done`; used to state monotonicity. -/
def SummaryState.rank : SummaryState → Nat
  | .none => 0
  | .queued => 1
  | .summarizing => 2
  | .done _ => 3

/-- Item in the selection list (`struct WorktreeItem` in `src/tui.rs`). -/
structure WorktreeItem where
  branch : String
  status : Option WorktreeStatus
  summary_state : SummaryState
deriving DecidableEq, Repr

/-- Async update message (`enum WorktreeUpdate` in `src/tui.rs`). -/
inductive WorktreeUpdate where
  | Status (index : Nat) (status : WorktreeStatus)
  | SummaryStarted (index : Nat)
  | Summary (index : Nat) (summary : String)
deriving DecidableEq, Repr

/-- The index an update targets. -/
def WorktreeUpdate.index : WorktreeUpdate → Nat
  | .Status i _ => i
  | .SummaryStarted i => i
  | .Summary i _ => i

/-- Keyboard input as consumed by the selection loops: the key code plus
whether the CONTROL modifier is held (the only modifier the code inspects). -/
inductive Key where
  | up
  | down
  | enter
  | esc
  | char (c : Char) (ctrl : Bool)
deriving DecidableEq, Repr

/-- Colors used by the status classification (`ratatui` colors in
`src/tui.rs`, `crossterm` colors via `style::indicators` in
`src/commands/status.rs`; `DarkGray`/`DarkGrey` are identified). -/
inductive Color where
  | Red
  | Yellow
  | Blue
  | Green
  | DarkGray
deriving DecidableEq, Repr

/-! ## SingleSelectApp (`src/tui.rs` lines 72–208) -/

/-- Application state for single selection.  `list_state` models
`ratatui::ListState::selected()`: the cursor, `none` when nothing is
selected. -/
structure SingleSelectApp where
  items : List WorktreeItem
  list_state : Option Nat
  pending_status : Nat
  pending_summaries : Nat
  frame : Nat
deriving DecidableEq, Repr

/-- `SingleSelectApp::new`. -/
def SingleSelectApp.new (items : List WorktreeItem) : SingleSelectApp :=
  { items := items
    list_state := if items.isEmpty then none else some 0
    pending_status := (items.filter (fun i => i.status.isNone)).length
    pending_summaries := (items.filter (fun i => i.summary_state.isPending)).length
    frame := 0 }

/-- `SingleSelectApp::tick` (`wrapping_add(1)` on a 64-bit `usize`). -/
def SingleSelectApp.tick (app : SingleSelectApp) : SingleSelectApp :=
  { app with frame := (app.frame + 1) % 2 ^ 64 }

/-- `SingleSelectApp::update_status`. -/
def SingleSelectApp.update_status (app : SingleSelectApp) (index : Nat)
    (status : WorktreeStatus) : SingleSelectApp :=
  match app.items.get? index with
  | Option.none => app
  | Option.some item =>
    let queueSummary := status.has_uncommitted && !status.is_orphaned
      && item.summary_state.isNoneState
    let item1 := if queueSummary then { item with summary_state := .queued } else item
    { app with
      items := app.items.set index { item1 with status := some status }
      pending_summaries :=
        if queueSummary then app.pending_summaries + 1 else app.pending_summaries
      pending_status :=
        if item.status.isNone then app.pending_status - 1 else app.pending_status }

/-- `SingleSelectApp::update_summary_started`. -/
def SingleSelectApp.update_summary_started (app : SingleSelectApp)
    (index : Nat) : SingleSelectApp :=
  match app.items.get? index with
  | Option.none => app
  | Option.some item =>
    { app with items := app.items.set index { item with summary_state := .summarizing } }

/-- `SingleSelectApp::update_summary`. -/
def SingleSelectApp.update_summary (app : SingleSelectApp) (index : Nat)
    (summary : String) : SingleSelectApp :=
  match app.items.get? index with
  | Option.none => app
  | Option.some item =>
    { app with
      items := app.items.set index { item with summary_state := .done summary }
      pending_summaries :=
        if item.summary_state.isPending then app.pending_summaries - 1
        else app.pending_summaries }

/-- `SingleSelectApp::move_up`. -/
def SingleSelectApp.move_up (app : SingleSelectApp) : SingleSelectApp :=
  if app.items.isEmpty then app
  else { app with list_state := some ((app.list_state.map (fun i => i - 1)).getD 0) }

/-- `SingleSelectApp::move_down`. -/
def SingleSelectApp.move_down (app : SingleSelectApp) : SingleSelectApp :=
  if app.items.isEmpty then app
  else
    let max_idx := app.items.length - 1
    { app with
      list_state := some ((app.list_state.map (fun i => min (i + 1) max_idx)).getD 0) }

/-- `SingleSelectApp::selected`. -/
def SingleSelectApp.selected (app : SingleSelectApp) : Option Nat :=
  app.list_state

/-- Routing of one drained update, mirroring the `match update` in
`run_single_selection_async`. -/
def SingleSelectApp.apply (app : SingleSelectApp) : WorktreeUpdate → SingleSelectApp
  | .Status index status => app.update_status index status
  | .SummaryStarted index => app.update_summary_started index
  | .Summary index summary => app.update_summary index summary

/-- Key handling of `run_single_selection_async`: returns the successor
state together with `some r` when the key breaks the loop with result `r`
(`r : Option Nat` is the value returned by the session), `none` when the
loop keeps running.  The match arms appear in the order of the Rust
`match code`. -/
def SingleSelectApp.on_key (app : SingleSelectApp) :
    Key → SingleSelectApp × Option (Option Nat)
  | .up => (app.move_up, none)
  | .char 'k' _ => (app.move_up, none)
  | .down => (app.move_down, none)
  | .char 'j' _ => (app.move_down, none)
  | .enter => (app, some app.selected)
  | .esc => (app, some none)
  | .char 'q' _ => (app, some none)
  | .char 'c' true => (app, some none)
  | _ => (app, none)

/-- One observable activity of the single-select render loop: a tick, a
polled key, or one drained update. -/
inductive SOp where
  | tick
  | key (k : Key)
  | upd (u : WorktreeUpdate)
deriving DecidableEq, Repr

/-- State evolution by one loop activity (ignoring loop exit). -/
def SingleSelectApp.step (app : SingleSelectApp) : SOp → SingleSelectApp
  | .tick => app.tick
  | .key k => (app.on_key k).1
  | .upd u => app.apply u

/-- State after a sequence of loop activities. -/
def SingleSelectApp.run (app : SingleSelectApp) (ops : List SOp) : SingleSelectApp :=
  ops.foldl SingleSelectApp.step app

/-- Outcome of the single-select loop over a finite activity trace:
`some r` when some key broke the loop with result `r` (the value
`run_single_selection_async` then returns), `none` when the trace ended
with the loop still running. -/
def SingleSelectApp.run_loop (app : SingleSelectApp) : List SOp → Option (Option Nat)
  | [] => none
  | op :: ops =>
    match op with
    | .tick => app.tick.run_loop ops
    | .upd u => (app.apply u).run_loop ops
    | .key k =>
      match app.on_key k with
      | (_, some r) => some r
      | (app2, none) => app2.run_loop ops

example : (SingleSelectApp.new []).on_key Key.enter
    = (SingleSelectApp.new [], some none) := by decide

example :
    ((SingleSelectApp.new [⟨"b", none, .none⟩]).update_summary 0 "a").pending_summaries
      = 0 := by decide

/-! ## MultiSelectApp (`src/tui.rs` lines 210–370) -/

/-- Application state for multi-selection. -/
structure MultiSelectApp where
  items : List WorktreeItem
  list_state : Option Nat
  selected : List Bool
  pending_status : Nat
  pending_summaries : Nat
  frame : Nat
deriving DecidableEq, Repr

/-- `MultiSelectApp::new` (`selected = vec![false; len]`). -/
def MultiSelectApp.new (items : List WorktreeItem) : MultiSelectApp :=
  { items := items
    list_state := if items.isEmpty then none else some 0
    selected := List.replicate items.length false
    pending_status := (items.filter (fun i => i.status.isNone)).length
    pending_summaries := (items.filter (fun i => i.summary_state.isPending)).length
    frame := 0 }

/-- `MultiSelectApp::tick`. -/
def MultiSelectApp.tick (app : MultiSelectApp) : MultiSelectApp :=
  { app with frame := (app.frame + 1) % 2 ^ 64 }

/-- `MultiSelectApp::update_status` (same body as the single-select one). -/
def MultiSelectApp.update_status (app : MultiSelectApp) (index : Nat)
    (status : WorktreeStatus) : MultiSelectApp :=
  match app.items.get? index with
  | Option.none => app
  | Option.some item =>
    let queueSummary := status.has_uncommitted && !status.is_orphaned
      && item.summary_state.isNoneState
    let item1 := if queueSummary then { item with summary_state := .queued } else item
    { app with
      items := app.items.set index { item1 with status := some status }
      pending_summaries :=
        if queueSummary then app.pending_summaries + 1 else app.pending_summaries
      pending_status :=
        if item.status.isNone then app.pending_status - 1 else app.pending_status }

/-- `MultiSelectApp::update_summary_started`. -/
def MultiSelectApp.update_summary_started (app : MultiSelectApp)
    (index : Nat) : MultiSelectApp :=
  match app.items.get? index with
  | Option.none => app
  | Option.some item =>
    { app with items := app.items.set index { item with summary_state := .summarizing } }

/-- `MultiSelectApp::update_summary`. -/
def MultiSelectApp.update_summary (app : MultiSelectApp) (index : Nat)
    (summary : String) : MultiSelectApp :=
  match app.items.get? index with
  | Option.none => app
  | Option.some item =>
    { app with
      items := app.items.set index { item with summary_state := .done summary }
      pending_summaries :=
        if item.summary_state.isPending then app.pending_summaries - 1
        else app.pending_summaries }

/-- `MultiSelectApp::move_up`. -/
def MultiSelectApp.move_up (app : MultiSelectApp) : MultiSelectApp :=
  if app.items.isEmpty then app
  else { app with list_state := some ((app.list_state.map (fun i => i - 1)).getD 0) }

/-- `MultiSelectApp::move_down`. -/
def MultiSelectApp.move_down (app : MultiSelectApp) : MultiSelectApp :=
  if app.items.isEmpty then app
  else
    let max_idx := app.items.length - 1
    { app with
      list_state := some ((app.list_state.map (fun i => min (i + 1) max_idx)).getD 0) }

/-- `MultiSelectApp::toggle_current`, total version: reads
`self.selected[idx]` with `getD` and writes with `List.set`.  On states
satisfying the cursor invariant this coincides with the exact Rust
behaviour; see `MultiSelectApp.toggle_current?` for the panic-faithful
version. -/
def MultiSelectApp.toggle_current (app : MultiSelectApp) : MultiSelectApp :=
  match app.list_state with
  | Option.none => app
  | Option.some idx =>
    { app with selected := app.selected.set idx (!(app.selected.getD idx false)) }

/-- Panic-faithful `MultiSelectApp::toggle_current`: the Rust body indexes
`self.selected[idx]` directly, which panics when `idx` is out of bounds;
that panic is modelled as `none`. -/
def MultiSelectApp.toggle_current? (app : MultiSelectApp) : Option MultiSelectApp :=
  match app.list_state with
  | Option.none => some app
  | Option.some idx =>
    if h : idx < app.selected.length then
      some { app with selected := app.selected.set idx (!(app.selected.get ⟨idx, h⟩)) }
    else none

/-- `MultiSelectApp::select_all`. -/
def MultiSelectApp.select_all (app : MultiSelectApp) : MultiSelectApp :=
  { app with selected := app.selected.map (fun _ => true) }

/-- `MultiSelectApp::deselect_all`. -/
def MultiSelectApp.deselect_all (app : MultiSelectApp) : MultiSelectApp :=
  { app with selected := app.selected.map (fun _ => false) }

/-- `MultiSelectApp::get_selected_indices`
(`enumerate` + `filter_map` keeping the indices of `true` flags). -/
def MultiSelectApp.get_selected_indices (app : MultiSelectApp) : List Nat :=
  app.selected.enum.filterMap (fun p => if p.2 then some p.1 else none)

/-- Routing of one drained update in `run_multi_selection_async`. -/
def MultiSelectApp.apply (app : MultiSelectApp) : WorktreeUpdate → MultiSelectApp
  | .Status index status => app.update_status index status
  | .SummaryStarted index => app.update_summary_started index
  | .Summary index summary => app.update_summary index summary

/-- Key handling of `run_multi_selection_async`: `some r` in the second
component means the loop breaks and the session returns `r`
(`r : Option (List Nat)`).  Arms in the order of the Rust `match code`. -/
def MultiSelectApp.on_key (app : MultiSelectApp) :
    Key → MultiSelectApp × Option (Option (List Nat))
  | .up => (app.move_up, none)
  | .char 'k' _ => (app.move_up, none)
  | .down => (app.move_down, none)
  | .char 'j' _ => (app.move_down, none)
  | .char ' ' _ => (app.toggle_current, none)
  | .char 'a' _ => (app.select_all, none)
  | .char 'n' _ => (app.deselect_all, none)
  | .enter =>
    let sel := app.get_selected_indices
    (app, some (if sel.isEmpty then none else some sel))
  | .esc => (app, some none)
  | .char 'q' _ => (app, some none)
  | .char 'c' true => (app, some none)
  | _ => (app, none)

/-- State evolution of the multi-select loop by one activity. -/
def MultiSelectApp.step (app : MultiSelectApp) : SOp → MultiSelectApp
  | .tick => app.tick
  | .key k => (app.on_key k).1
  | .upd u => app.apply u

/-- State after a sequence of loop activities. -/
def MultiSelectApp.run (app : MultiSelectApp) (ops : List SOp) : MultiSelectApp :=
  ops.foldl MultiSelectApp.step app

/-- Outcome of the multi-select loop over a finite activity trace. -/
def MultiSelectApp.run_loop (app : MultiSelectApp) :
    List SOp → Option (Option (List Nat))
  | [] => none
  | op :: ops =>
    match op with
    | .tick => app.tick.run_loop ops
    | .upd u => (app.apply u).run_loop ops
    | .key k =>
      match app.on_key k with
      | (_, some r) => some r
      | (app2, none) => app2.run_loop ops

example :
    (MultiSelectApp.new [⟨"b", none, .none⟩]).select_all.get_selected_indices
      = [0] := by decide

example :
    ((MultiSelectApp.new [⟨"b", none, .none⟩]).on_key Key.enter).2
      = some none := by decide

/-! ## Status classification (`build_worktree_list_item`, `src/tui.rs`
lines 391–407, and the `run` of `src/commands/status.rs` lines 52–63) -/

/-- The `(status_icon, status_color, show_summary_line)` triple computed at
the top of `build_worktree_list_item` in `src/tui.rs`. -/
def item_status_icon (status : Option WorktreeStatus) : Char × Color × Bool :=
  match status with
  | Option.none => ('◌', Color.DarkGray, false)
  | Option.some s =>
    if s.is_orphaned then ('✗', Color.Red, false)
    else
      let icon_color :=
        if s.has_uncommitted && s.has_unpushed then ('●', Color.Red)
        else if s.has_uncommitted then ('●', Color.Yellow)
        else if s.has_unpushed then ('●', Color.Blue)
        else ('●', Color.Green)
      (icon_color.1, icon_color.2, s.has_uncommitted && !s.is_orphaned)

/-- The `(icon, color)` pair computed in `run` of `src/commands/status.rs`
(`style::indicators` constants resolved: `DANGER = Red`,
`UNCOMMITTED = Yellow`, `UNPUSHED = Blue`, `CLEAN = Green`). -/
def status_run_icon_color (s : WorktreeStatus) : Char × Color :=
  if s.is_orphaned then ('✗', Color.Red)
  else if s.has_uncommitted && s.has_unpushed then ('●', Color.Red)
  else if s.has_uncommitted then ('●', Color.Yellow)
  else if s.has_unpushed then ('●', Color.Blue)
  else ('●', Color.Green)

/-- The four-way (plus clean) severity buckets named by the spec. -/
inductive StatusClass where
  | orphaned
  | uncommittedUnpushed
  | uncommittedOnly
  | unpushedOnly
  | clean
deriving DecidableEq, Repr

/-- Modelled from the spec: the severity classification of §4.5, written
down in the spec's priority order `orphaned > uncommitted-and-unpushed >
uncommitted-only > unpushed-only > clean`.  This definition follows the
spec's words and is compared against the two classification sites of the
source. -/
def spec_severity (s : WorktreeStatus) : StatusClass :=
  if s.is_orphaned then .orphaned
  else if s.has_uncommitted && s.has_unpushed then .uncommittedUnpushed
  else if s.has_uncommitted then .uncommittedOnly
  else if s.has_unpushed then .unpushedOnly
  else .clean

/-- Glyph assigned to each severity bucket. -/
def StatusClass.icon : StatusClass → Char
  | .orphaned => '✗'
  | _ => '●'

/-- Color assigned to each severity bucket. -/
def StatusClass.color : StatusClass → Color
  | .orphaned => Color.Red
  | .uncommittedUnpushed => Color.Red
  | .uncommittedOnly => Color.Yellow
  | .unpushedOnly => Color.Blue
  | .clean => Color.Green

/-! ## Confirmation gate (`confirm`, `src/tui.rs` lines 681–705, and
`run_interactive`, `src/commands/cleanup.rs` lines 141–170) -/

/-- One key's effect inside the `confirm` prompt loop: `some b` when the
key answers the prompt with `b`, `none` when the loop keeps waiting.  Arms
in the order of the Rust `match code` (modifiers are ignored there). -/
def confirm_key : Key → Option Bool
  | .char 'y' _ => some true
  | .char 'Y' _ => some true
  | .char 'n' _ => some false
  | .char 'N' _ => some false
  | .esc => some false
  | .char 'q' _ => some false
  | .enter => some false
  | _ => none

/-- Result of the `confirm` prompt over a finite key trace: the answer of
the first deciding key, `none` when no key in the trace decides (the Rust
loop would still be polling). -/
def confirm_result : List Key → Option Bool
  | [] => none
  | k :: ks =>
    match confirm_key k with
    | some b => some b
    | none => confirm_result ks

/-- Outcome of the interactive cleanup after the selection TUI returned. -/
inductive CleanupOutcome where
  | cancelled
  | aborted
  | deleted (indices : List Nat)
deriving DecidableEq, Repr

/-- Decision logic of `run_interactive` in `src/commands/cleanup.rs` after
`run_multi_selection_async` returned `selection`: `cancelled` on `None` or
an empty index list, otherwise — when some selected worktree has local
changes (`has_changes`) — the confirmation gate runs over `keys` and only
an affirmative answer reaches the deletion loop; without local changes the
deletion loop runs directly.  A trace whose gate never got an answer is
mapped to `aborted` (the real program would still be blocked at the
prompt, with nothing deleted). -/
def run_interactive_decision (selection : Option (List Nat))
    (has_changes : Bool) (keys : List Key) : CleanupOutcome :=
  match selection with
  | Option.none => .cancelled
  | Option.some indices =>
    if indices.isEmpty then .cancelled
    else if has_changes then
      if confirm_result keys = some true then .deleted indices else .aborted
    else .deleted indices

/-! ## Producer side (`run_interactive`, `src/commands/cleanup.rs` lines
95–112; the identical task body appears in `run` of
`src/commands/continue_session.rs` lines 42–59) -/

/-- The sequence of updates one spawned background task sends for work
unit `index`, as a function of the status probe's result and the summary
probe's result.  Modelled from the spec: `git::get_ai_summary` is absent
from the sources; per spec §6 it is `probe_summary(unit_id) ->
Option<text>`, so its result is passed in as `ai_summary`. -/
def spawn_task_events (index : Nat) (status : WorktreeStatus)
    (ai_summary : Option String) : List WorktreeUpdate :=
  let needs_summary := status.has_uncommitted && !status.is_orphaned
  [WorktreeUpdate.Status index status] ++
    (if needs_summary then
      [WorktreeUpdate.SummaryStarted index] ++
        (match ai_summary with
         | Option.some summary => [WorktreeUpdate.Summary index summary]
         | Option.none => [])
    else [])

/-- Number of `Summary` (terminal `SummaryReady`) events in a trace. -/
def countSummaries (evs : List WorktreeUpdate) : Nat :=
  (evs.filter (fun e => match e with | .Summary _ _ => true | _ => false)).length

example :
    spawn_task_events 0 ⟨false, true, false, 0, 0, 0, 0, 0⟩ none
      = [.Status 0 ⟨false, true, false, 0, 0, 0, 0, 0⟩, .SummaryStarted 0] := by decide

example : confirm_result [Key.char 'x' false, Key.enter] = some false := by decide

/-! ## List helper lemmas -/

/-- Length bound extracted from a successful `get?`. -/
theorem lt_of_get?_some {α : Type} :
    ∀ (l : List α) (i : Nat) (x : α), l.get? i = some x → i < l.length
  | _ :: _, 0, _, _ => Nat.succ_pos _
  | _ :: l, i + 1, x, h => Nat.succ_lt_succ (lt_of_get?_some l i x h)

/-- Reading back the written position after `List.set`. -/
theorem get?_set_self {α : Type} (x : α) :
    ∀ (l : List α) (i : Nat), i < l.length → (l.set i x).get? i = some x
  | _ :: _, 0, _ => rfl
  | _ :: l, i + 1, h => get?_set_self x l i (Nat.lt_of_succ_lt_succ h)

/-- Reading another position after `List.set`. -/
theorem get?_set_ne {α : Type} (x : α) :
    ∀ (l : List α) (i j : Nat), i ≠ j → (l.set i x).get? j = l.get? j
  | [], _, _, _ => rfl
  | _ :: _, 0, 0, h => absurd rfl h
  | _ :: _, 0, _ + 1, _ => rfl
  | _ :: _, _ + 1, 0, _ => rfl
  | _ :: l, i + 1, j + 1, h =>
    get?_set_ne x l i j (fun e => h (congrArg Nat.succ e))

/-- How `List.set` moves the length of a `filter`: stated additively to
avoid truncated subtraction. -/
theorem filter_length_set {α : Type} (p : α → Bool) :
    ∀ (l : List α) (i : Nat) (a b : α), l.get? i = some a →
      ((l.set i b).filter p).length + (if p a then 1 else 0)
        = (l.filter p).length + (if p b then 1 else 0) := by
  intro l
  induction l with
  | nil => intro i a b h; simp at h
  | cons x xs ih =>
    intro i a b h
    cases i with
    | zero =>
      simp only [List.get?] at h
      injection h with h
      subst h
      simp only [List.set, List.filter_cons]
      by_cases hpa : p x <;> by_cases hpb : p b <;> simp [hpa, hpb]
    | succ i =>
      simp only [List.get?] at h
      have hrec := ih i a b h
      simp only [List.set, List.filter_cons]
      by_cases hpx : p x <;> by_cases hpa : p a <;> by_cases hpb : p b <;>
        simp [hpx, hpa, hpb] at hrec ⊢ <;> omega

/-- A position holding a `p`-positive element makes the filter nonempty. -/
theorem filter_length_pos {α : Type} (p : α → Bool) (l : List α) (i : Nat)
    (a : α) (h : l.get? i = some a) (hp : p a = true) :
    0 < (l.filter p).length := by
  have hmem : a ∈ l := List.get?_mem h
  have : a ∈ l.filter p := List.mem_filter.mpr ⟨hmem, hp⟩
  exact List.length_pos.mpr (List.ne_nil_of_mem this)

/-- Unfolding step for the selected-index computation at a `false` flag. -/
theorem selIndices_cons_false (n : Nat) (bs : List Bool) :
    (List.enumFrom n (false :: bs)).filterMap
        (fun p => if p.2 then some p.1 else none)
      = (List.enumFrom (n + 1) bs).filterMap
          (fun p => if p.2 then some p.1 else none) := by
  simp only [List.enumFrom, List.filterMap_cons]
  norm_num

/-- Unfolding step for the selected-index computation at a `true` flag. -/
theorem selIndices_cons_true (n : Nat) (bs : List Bool) :
    (List.enumFrom n (true :: bs)).filterMap
        (fun p => if p.2 then some p.1 else none)
      = n :: (List.enumFrom (n + 1) bs).filterMap
          (fun p => if p.2 then some p.1 else none) := by
  simp only [List.enumFrom, List.filterMap_cons]
  norm_num

/-- Elements produced by `get_selected_indices` over `enumFrom n` are at
least `n`. -/
theorem selIndices_enumFrom_ge :
    ∀ (l : List Bool) (n x : Nat),
      x ∈ (List.enumFrom n l).filterMap
        (fun p => if p.2 then some p.1 else none) → n ≤ x := by
  intro l
  induction l with
  | nil => intro n x h; simp at h
  | cons b bs ih =>
    intro n x h
    cases b
    · rw [selIndices_cons_false] at h
      exact Nat.le_of_succ_le (ih (n + 1) x h)
    · rw [selIndices_cons_true] at h
      rcases List.mem_cons.mp h with h | h
      · omega
      · exact Nat.le_of_succ_le (ih (n + 1) x h)

/-- The selected-index list over `enumFrom` is strictly ascending. -/
theorem selIndices_enumFrom_sorted :
    ∀ (l : List Bool) (n : Nat),
      List.Pairwise (· < ·) ((List.enumFrom n l).filterMap
        (fun p => if p.2 then some p.1 else none)) := by
  intro l
  induction l with
  | nil => intro n; simp
  | cons b bs ih =>
    intro n
    cases b
    · rw [selIndices_cons_false]
      exact ih (n + 1)
    · rw [selIndices_cons_true]
      refine List.Pairwise.cons ?_ (ih (n + 1))
      intro x hx
      exact Nat.lt_of_succ_le (selIndices_enumFrom_ge bs (n + 1) x hx)

/-- Membership in the selected-index list over `enumFrom`. -/
theorem selIndices_enumFrom_mem :
    ∀ (l : List Bool) (n x : Nat),
      (x ∈ (List.enumFrom n l).filterMap
          (fun p => if p.2 then some p.1 else none))
        ↔ ∃ j, x = n + j ∧ l.get? j = some true := by
  intro l
  induction l with
  | nil => intro n x; simp
  | cons b bs ih =>
    intro n x
    cases b
    · rw [selIndices_cons_false]
      constructor
      · intro h
        rcases (ih (n + 1) x).mp h with ⟨j, hj, hget⟩
        exact ⟨j + 1, by omega, by simpa using hget⟩
      · rintro ⟨j, hj, hget⟩
        cases j with
        | zero => simp at hget
        | succ j =>
          exact (ih (n + 1) x).mpr ⟨j, by omega, by simpa using hget⟩
    · rw [selIndices_cons_true]
      constructor
      · intro h
        rcases List.mem_cons.mp h with h | h
        · exact ⟨0, by omega, by simp⟩
        · rcases (ih (n + 1) x).mp h with ⟨j, hj, hget⟩
          exact ⟨j + 1, by omega, by simpa using hget⟩
      · rintro ⟨j, hj, hget⟩
        cases j with
        | zero => exact List.mem_cons.mpr (Or.inl (by omega))
        | succ j =>
          refine List.mem_cons.mpr (Or.inr ((ih (n + 1) x).mpr ⟨j, by omega, ?_⟩))
          simpa using hget

/-- Number of items whose status has not resolved yet; the quantity the
`pending_status` counter is meant to track. -/
def statusAbsentCount (items : List WorktreeItem) : Nat :=
  (items.filter (fun it => it.status.isNone)).length

/-- After setting every flag to `true`, the selected indices over
`enumFrom n` are the contiguous range starting at `n`. -/
theorem selIndices_enumFrom_all_true :
    ∀ (l : List Bool) (n : Nat),
      (List.enumFrom n (l.map (fun _ => true))).filterMap
          (fun p => if p.2 then some p.1 else none)
        = List.range' n l.length := by
  intro l
  induction l with
  | nil => intro n; simp
  | cons b bs ih =>
    intro n
    show (List.enumFrom n (true :: bs.map (fun _ => true))).filterMap
        (fun p => if p.2 then some p.1 else none) = _
    rw [selIndices_cons_true, ih (n + 1)]
    rfl

/-! ## Invariant machinery for the `pending_status` counter -/

/-- Navigation does not touch the item list or the counters
(single-select). -/
theorem SingleSelectApp.single_move_up_fields (app : SingleSelectApp) :
    app.move_up.items = app.items
    ∧ app.move_up.pending_status = app.pending_status
    ∧ app.move_up.pending_summaries = app.pending_summaries := by
  unfold SingleSelectApp.move_up
  split <;> exact ⟨rfl, rfl, rfl⟩

/-- Navigation does not touch the item list or the counters
(single-select, downward). -/
theorem SingleSelectApp.single_move_down_fields (app : SingleSelectApp) :
    app.move_down.items = app.items
    ∧ app.move_down.pending_status = app.pending_status
    ∧ app.move_down.pending_summaries = app.pending_summaries := by
  unfold SingleSelectApp.move_down
  split <;> exact ⟨rfl, rfl, rfl⟩

/-- Key handling never changes the item list or the counters
(single-select). -/
theorem SingleSelectApp.single_on_key_fields (app : SingleSelectApp) (k : Key) :
    (app.on_key k).1.items = app.items
    ∧ (app.on_key k).1.pending_status = app.pending_status
    ∧ (app.on_key k).1.pending_summaries = app.pending_summaries := by
  unfold SingleSelectApp.on_key
  split
  · exact app.single_move_up_fields
  · exact app.single_move_up_fields
  · exact app.single_move_down_fields
  · exact app.single_move_down_fields
  · exact ⟨rfl, rfl, rfl⟩
  · exact ⟨rfl, rfl, rfl⟩
  · exact ⟨rfl, rfl, rfl⟩
  · exact ⟨rfl, rfl, rfl⟩
  · exact ⟨rfl, rfl, rfl⟩

/-- `update_status` keeps `pending_status` in sync with the number of
status-absent items. -/
theorem SingleSelectApp.single_update_status_inv (app : SingleSelectApp) (i : Nat)
    (st : WorktreeStatus) (h : app.pending_status = statusAbsentCount app.items) :
    (app.update_status i st).pending_status
      = statusAbsentCount (app.update_status i st).items := by
  unfold SingleSelectApp.update_status
  cases hget : app.items.get? i with
  | none => exact h
  | some item =>
    obtain ⟨br, stt, sum⟩ := item
    have hfls := fun X =>
      filter_length_set (fun it => it.status.isNone) app.items i
        ⟨br, stt, sum⟩ ⟨br, some st, X⟩ hget
    dsimp only
    rcases Bool.eq_false_or_eq_true
        (st.has_uncommitted && !st.is_orphaned && SummaryState.isNoneState sum)
      with hq | hq
    · cases stt with
      | none =>
        have hcount := hfls SummaryState.queued
        simp only [hq, statusAbsentCount, Option.isNone_none, Option.isNone_some,
          Bool.false_eq_true, if_false, reduceIte] at h hcount ⊢
        omega
      | some s0 =>
        have hcount := hfls SummaryState.queued
        simp only [hq, statusAbsentCount, Option.isNone_none, Option.isNone_some,
          Bool.false_eq_true, if_false, reduceIte] at h hcount ⊢
        omega
    · cases stt with
      | none =>
        have hcount := hfls sum
        simp only [hq, statusAbsentCount, Option.isNone_none, Option.isNone_some,
          Bool.false_eq_true, if_false, reduceIte] at h hcount ⊢
        omega
      | some s0 =>
        have hcount := hfls sum
        simp only [hq, statusAbsentCount, Option.isNone_none, Option.isNone_some,
          Bool.false_eq_true, if_false, reduceIte] at h hcount ⊢
        omega

/-- `update_summary_started` does not change the status-absence count or
`pending_status`. -/
theorem SingleSelectApp.single_update_summary_started_inv (app : SingleSelectApp)
    (i : Nat) (h : app.pending_status = statusAbsentCount app.items) :
    (app.update_summary_started i).pending_status
      = statusAbsentCount (app.update_summary_started i).items := by
  unfold SingleSelectApp.update_summary_started
  cases hget : app.items.get? i with
  | none => exact h
  | some item =>
    obtain ⟨br, stt, sum⟩ := item
    have hcount := filter_length_set (fun it => it.status.isNone) app.items i
      ⟨br, stt, sum⟩ ⟨br, stt, SummaryState.summarizing⟩ hget
    dsimp only
    dsimp only at hcount
    simp only [statusAbsentCount] at h ⊢
    omega

/-- `update_summary` does not change the status-absence count or
`pending_status`. -/
theorem SingleSelectApp.single_update_summary_inv (app : SingleSelectApp)
    (i : Nat) (text : String)
    (h : app.pending_status = statusAbsentCount app.items) :
    (app.update_summary i text).pending_status
      = statusAbsentCount (app.update_summary i text).items := by
  unfold SingleSelectApp.update_summary
  cases hget : app.items.get? i with
  | none => exact h
  | some item =>
    obtain ⟨br, stt, sum⟩ := item
    have hcount := filter_length_set (fun it => it.status.isNone) app.items i
      ⟨br, stt, sum⟩ ⟨br, stt, SummaryState.done text⟩ hget
    dsimp only
    dsimp only at hcount
    simp only [statusAbsentCount] at h ⊢
    omega

/-- One loop activity preserves the `pending_status` invariant
(single-select). -/
theorem SingleSelectApp.single_step_inv (app : SingleSelectApp) (op : SOp)
    (h : app.pending_status = statusAbsentCount app.items) :
    (app.step op).pending_status = statusAbsentCount (app.step op).items := by
  cases op with
  | tick => exact h
  | key k =>
    have hk := app.single_on_key_fields k
    simp only [SingleSelectApp.step, hk.1, hk.2.1]
    exact h
  | upd u =>
    cases u with
    | Status index status => exact app.single_update_status_inv index status h
    | SummaryStarted index => exact app.single_update_summary_started_inv index h
    | Summary index summary => exact app.single_update_summary_inv index summary h

/-- Every state reachable in the single-select loop satisfies the
`pending_status` invariant. -/
theorem SingleSelectApp.single_run_inv (items : List WorktreeItem) (ops : List SOp) :
    ((SingleSelectApp.new items).run ops).pending_status
      = statusAbsentCount ((SingleSelectApp.new items).run ops).items := by
  have base : (SingleSelectApp.new items).pending_status
      = statusAbsentCount (SingleSelectApp.new items).items := rfl
  suffices hgen : ∀ (ops : List SOp) (app : SingleSelectApp),
      app.pending_status = statusAbsentCount app.items →
      (app.run ops).pending_status = statusAbsentCount (app.run ops).items from
    hgen ops _ base
  intro ops
  induction ops with
  | nil => intro app h; exact h
  | cons op ops ih =>
    intro app h
    exact ih (app.step op) (app.single_step_inv op h)

/-- The first `StatusReady` for an index whose status is still absent
decreases `pending_status` by exactly one (given the counter invariant). -/
theorem SingleSelectApp.single_first_status_decrement (app : SingleSelectApp)
    (i : Nat) (it : WorktreeItem) (st : WorktreeStatus)
    (hinv : app.pending_status = statusAbsentCount app.items)
    (hget : app.items.get? i = some it) (hnone : it.status = Option.none) :
    (app.update_status i st).pending_status + 1 = app.pending_status := by
  have hpos : 0 < statusAbsentCount app.items := by
    refine filter_length_pos _ app.items i it hget ?_
    simp [hnone]
  unfold SingleSelectApp.update_status
  rw [hget]
  obtain ⟨br, stt, sum⟩ := it
  cases stt with
  | none =>
    dsimp only
    simp only [Option.isNone_none, reduceIte]
    omega
  | some s0 => simp at hnone

/-- A duplicate `StatusReady` (status already present) leaves
`pending_status` unchanged. -/
theorem SingleSelectApp.single_dup_status_no_decrement (app : SingleSelectApp)
    (i : Nat) (it : WorktreeItem) (st : WorktreeStatus)
    (hget : app.items.get? i = some it) (hsome : it.status.isSome = true) :
    (app.update_status i st).pending_status = app.pending_status := by
  unfold SingleSelectApp.update_status
  rw [hget]
  obtain ⟨br, stt, sum⟩ := it
  cases stt with
  | none => simp at hsome
  | some s0 =>
    dsimp only
    simp only [Option.isNone_some, Bool.false_eq_true, if_false]

/-- Navigation does not touch the item list or the counters
(multi-select). -/
theorem MultiSelectApp.multi_move_up_fields (app : MultiSelectApp) :
    app.move_up.items = app.items
    ∧ app.move_up.pending_status = app.pending_status
    ∧ app.move_up.pending_summaries = app.pending_summaries := by
  unfold MultiSelectApp.move_up
  split <;> exact ⟨rfl, rfl, rfl⟩

/-- Navigation does not touch the item list or the counters
(multi-select, downward). -/
theorem MultiSelectApp.multi_move_down_fields (app : MultiSelectApp) :
    app.move_down.items = app.items
    ∧ app.move_down.pending_status = app.pending_status
    ∧ app.move_down.pending_summaries = app.pending_summaries := by
  unfold MultiSelectApp.move_down
  split <;> exact ⟨rfl, rfl, rfl⟩

/-- Toggling and (de)selecting all touch only the `selected` flags. -/
theorem MultiSelectApp.toggle_current_fields (app : MultiSelectApp) :
    app.toggle_current.items = app.items
    ∧ app.toggle_current.pending_status = app.pending_status
    ∧ app.toggle_current.pending_summaries = app.pending_summaries := by
  unfold MultiSelectApp.toggle_current
  cases app.list_state <;> exact ⟨rfl, rfl, rfl⟩

/-- Key handling never changes the item list or the counters
(multi-select). -/
theorem MultiSelectApp.multi_on_key_fields (app : MultiSelectApp) (k : Key) :
    (app.on_key k).1.items = app.items
    ∧ (app.on_key k).1.pending_status = app.pending_status
    ∧ (app.on_key k).1.pending_summaries = app.pending_summaries := by
  unfold MultiSelectApp.on_key
  split
  · exact app.multi_move_up_fields
  · exact app.multi_move_up_fields
  · exact app.multi_move_down_fields
  · exact app.multi_move_down_fields
  · exact app.toggle_current_fields
  · exact ⟨rfl, rfl, rfl⟩
  · exact ⟨rfl, rfl, rfl⟩
  · exact ⟨rfl, rfl, rfl⟩
  · exact ⟨rfl, rfl, rfl⟩
  · exact ⟨rfl, rfl, rfl⟩
  · exact ⟨rfl, rfl, rfl⟩
  · exact ⟨rfl, rfl, rfl⟩

/-- `update_status` keeps `pending_status` in sync with the number of
status-absent items (multi-select). -/
theorem MultiSelectApp.multi_update_status_inv (app : MultiSelectApp) (i : Nat)
    (st : WorktreeStatus) (h : app.pending_status = statusAbsentCount app.items) :
    (app.update_status i st).pending_status
      = statusAbsentCount (app.update_status i st).items := by
  unfold MultiSelectApp.update_status
  cases hget : app.items.get? i with
  | none => exact h
  | some item =>
    obtain ⟨br, stt, sum⟩ := item
    have hfls := fun X =>
      filter_length_set (fun it => it.status.isNone) app.items i
        ⟨br, stt, sum⟩ ⟨br, some st, X⟩ hget
    dsimp only
    rcases Bool.eq_false_or_eq_true
        (st.has_uncommitted && !st.is_orphaned && SummaryState.isNoneState sum)
      with hq | hq
    · cases stt with
      | none =>
        have hcount := hfls SummaryState.queued
        simp only [hq, statusAbsentCount, Option.isNone_none, Option.isNone_some,
          Bool.false_eq_true, if_false, reduceIte] at h hcount ⊢
        omega
      | some s0 =>
        have hcount := hfls SummaryState.queued
        simp only [hq, statusAbsentCount, Option.isNone_none, Option.isNone_some,
          Bool.false_eq_true, if_false, reduceIte] at h hcount ⊢
        omega
    · cases stt with
      | none =>
        have hcount := hfls sum
        simp only [hq, statusAbsentCount, Option.isNone_none, Option.isNone_some,
          Bool.false_eq_true, if_false, reduceIte] at h hcount ⊢
        omega
      | some s0 =>
        have hcount := hfls sum
        simp only [hq, statusAbsentCount, Option.isNone_none, Option.isNone_some,
          Bool.false_eq_true, if_false, reduceIte] at h hcount ⊢
        omega

/-- `update_summary_started` does not change the status-absence count or
`pending_status` (multi-select). -/
theorem MultiSelectApp.multi_update_summary_started_inv (app : MultiSelectApp)
    (i : Nat) (h : app.pending_status = statusAbsentCount app.items) :
    (app.update_summary_started i).pending_status
      = statusAbsentCount (app.update_summary_started i).items := by
  unfold MultiSelectApp.update_summary_started
  cases hget : app.items.get? i with
  | none => exact h
  | some item =>
    obtain ⟨br, stt, sum⟩ := item
    have hcount := filter_length_set (fun it => it.status.isNone) app.items i
      ⟨br, stt, sum⟩ ⟨br, stt, SummaryState.summarizing⟩ hget
    dsimp only
    dsimp only at hcount
    simp only [statusAbsentCount] at h ⊢
    omega

/-- `update_summary` does not change the status-absence count or
`pending_status` (multi-select). -/
theorem MultiSelectApp.multi_update_summary_inv (app : MultiSelectApp)
    (i : Nat) (text : String)
    (h : app.pending_status = statusAbsentCount app.items) :
    (app.update_summary i text).pending_status
      = statusAbsentCount (app.update_summary i text).items := by
  unfold MultiSelectApp.update_summary
  cases hget : app.items.get? i with
  | none => exact h
  | some item =>
    obtain ⟨br, stt, sum⟩ := item
    have hcount := filter_length_set (fun it => it.status.isNone) app.items i
      ⟨br, stt, sum⟩ ⟨br, stt, SummaryState.done text⟩ hget
    dsimp only
    dsimp only at hcount
    simp only [statusAbsentCount] at h ⊢
    omega

/-- One loop activity preserves the `pending_status` invariant
(multi-select). -/
theorem MultiSelectApp.multi_step_inv (app : MultiSelectApp) (op : SOp)
    (h : app.pending_status = statusAbsentCount app.items) :
    (app.step op).pending_status = statusAbsentCount (app.step op).items := by
  cases op with
  | tick => exact h
  | key k =>
    have hk := app.multi_on_key_fields k
    simp only [MultiSelectApp.step, hk.1, hk.2.1]
    exact h
  | upd u =>
    cases u with
    | Status index status => exact app.multi_update_status_inv index status h
    | SummaryStarted index => exact app.multi_update_summary_started_inv index h
    | Summary index summary => exact app.multi_update_summary_inv index summary h

/-- Every state reachable in the multi-select loop satisfies the
`pending_status` invariant. -/
theorem MultiSelectApp.multi_run_inv (items : List WorktreeItem) (ops : List SOp) :
    ((MultiSelectApp.new items).run ops).pending_status
      = statusAbsentCount ((MultiSelectApp.new items).run ops).items := by
  have base : (MultiSelectApp.new items).pending_status
      = statusAbsentCount (MultiSelectApp.new items).items := rfl
  suffices hgen : ∀ (ops : List SOp) (app : MultiSelectApp),
      app.pending_status = statusAbsentCount app.items →
      (app.run ops).pending_status = statusAbsentCount (app.run ops).items from
    hgen ops _ base
  intro ops
  induction ops with
  | nil => intro app h; exact h
  | cons op ops ih =>
    intro app h
    exact ih (app.step op) (app.multi_step_inv op h)

/-- The first `StatusReady` for an index whose status is still absent
decreases `pending_status` by exactly one (multi-select). -/
theorem MultiSelectApp.multi_first_status_decrement (app : MultiSelectApp)
    (i : Nat) (it : WorktreeItem) (st : WorktreeStatus)
    (hinv : app.pending_status = statusAbsentCount app.items)
    (hget : app.items.get? i = some it) (hnone : it.status = Option.none) :
    (app.update_status i st).pending_status + 1 = app.pending_status := by
  have hpos : 0 < statusAbsentCount app.items := by
    refine filter_length_pos _ app.items i it hget ?_
    simp [hnone]
  unfold MultiSelectApp.update_status
  rw [hget]
  obtain ⟨br, stt, sum⟩ := it
  cases stt with
  | none =>
    dsimp only
    simp only [Option.isNone_none, reduceIte]
    omega
  | some s0 => simp at hnone

/-- A duplicate `StatusReady` (status already present) leaves
`pending_status` unchanged (multi-select). -/
theorem MultiSelectApp.multi_dup_status_no_decrement (app : MultiSelectApp)
    (i : Nat) (it : WorktreeItem) (st : WorktreeStatus)
    (hget : app.items.get? i = some it) (hsome : it.status.isSome = true) :
    (app.update_status i st).pending_status = app.pending_status := by
  unfold MultiSelectApp.update_status
  rw [hget]
  obtain ⟨br, stt, sum⟩ := it
  cases stt with
  | none => simp at hsome
  | some s0 =>
    dsimp only
    simp only [Option.isNone_some, Bool.false_eq_true, if_false]

/-! ## Claim C2 -/

/-- C2: for every sequence of loop activities applied to a freshly
constructed selection model (single- or multi-select), applying a
`StatusReady` update for index `i` decreases `pending_status` by exactly 1
when item `i`'s status is still absent (the first `StatusReady` for that
index), and leaves `pending_status` unchanged when the status is already
present (a duplicate `StatusReady` does not double-decrement). -/
theorem C2_pending_status_exact_first_decrement
    (items : List WorktreeItem) (ops : List SOp) (i : Nat) (it : WorktreeItem)
    (st : WorktreeStatus) :
    (((SingleSelectApp.new items).run ops).items.get? i = some it →
      (it.status = Option.none →
        (((SingleSelectApp.new items).run ops).update_status i st).pending_status + 1
          = ((SingleSelectApp.new items).run ops).pending_status)
      ∧ (it.status.isSome = true →
        (((SingleSelectApp.new items).run ops).update_status i st).pending_status
          = ((SingleSelectApp.new items).run ops).pending_status))
    ∧ (((MultiSelectApp.new items).run ops).items.get? i = some it →
      (it.status = Option.none →
        (((MultiSelectApp.new items).run ops).update_status i st).pending_status + 1
          = ((MultiSelectApp.new items).run ops).pending_status)
      ∧ (it.status.isSome = true →
        (((MultiSelectApp.new items).run ops).update_status i st).pending_status
          = ((MultiSelectApp.new items).run ops).pending_status)) := by
  constructor
  · intro hget
    exact ⟨fun hnone => SingleSelectApp.single_first_status_decrement _ i it st
        (SingleSelectApp.single_run_inv items ops) hget hnone,
      fun hsome => SingleSelectApp.single_dup_status_no_decrement _ i it st hget hsome⟩
  · intro hget
    exact ⟨fun hnone => MultiSelectApp.multi_first_status_decrement _ i it st
        (MultiSelectApp.multi_run_inv items ops) hget hnone,
      fun hsome => MultiSelectApp.multi_dup_status_no_decrement _ i it st hget hsome⟩

/-- C2 witness: on a one-item list whose status is still absent, the first
`StatusReady` decrements `pending_status` from 1 to 0 in both variants. -/
theorem C2_pending_status_exact_first_decrement_witness :
    ((((SingleSelectApp.new [⟨"b", Option.none, SummaryState.none⟩]).run
          []).update_status 0 ⟨false, false, false, 0, 0, 0, 0, 0⟩).pending_status + 1
      = ((SingleSelectApp.new [⟨"b", Option.none, SummaryState.none⟩]).run
          []).pending_status)
    ∧ ((((MultiSelectApp.new [⟨"b", Option.none, SummaryState.none⟩]).run
          []).update_status 0 ⟨false, false, false, 0, 0, 0, 0, 0⟩).pending_status + 1
      = ((MultiSelectApp.new [⟨"b", Option.none, SummaryState.none⟩]).run
          []).pending_status) := by
  have h := C2_pending_status_exact_first_decrement
    [⟨"b", Option.none, SummaryState.none⟩] [] 0
    ⟨"b", Option.none, SummaryState.none⟩ ⟨false, false, false, 0, 0, 0, 0, 0⟩
  exact ⟨(h.1 (by decide)).1 rfl, (h.2 (by decide)).1 rfl⟩

/-! ## Claim C10 -/

/-- C10: `pending_summaries` is decremented (by a saturating 1) exactly
when the targeted item's summary state is `Queued` or `Summarizing` at the
moment a `SummaryReady` update is applied; a duplicate `SummaryReady` for
an index already `Done` (or still `None`) does not decrement it.  Both
counters use saturating subtraction: from 0 they stay 0, so no update can
make either counter underflow, in either variant. -/
theorem C10_pending_summaries_saturating_guarded_decrement
    (sapp : SingleSelectApp) (mapp : MultiSelectApp) (i : Nat)
    (it : WorktreeItem) (text : String) (st : WorktreeStatus) :
    (sapp.items.get? i = some it →
      (it.summary_state.isPending = true →
        (sapp.update_summary i text).pending_summaries
          = sapp.pending_summaries - 1)
      ∧ (it.summary_state.isPending = false →
        (sapp.update_summary i text).pending_summaries
          = sapp.pending_summaries))
    ∧ (sapp.pending_summaries = 0 →
        (sapp.update_summary i text).pending_summaries = 0)
    ∧ (sapp.pending_status = 0 →
        (sapp.update_status i st).pending_status = 0)
    ∧ (mapp.items.get? i = some it →
      (it.summary_state.isPending = true →
        (mapp.update_summary i text).pending_summaries
          = mapp.pending_summaries - 1)
      ∧ (it.summary_state.isPending = false →
        (mapp.update_summary i text).pending_summaries
          = mapp.pending_summaries))
    ∧ (mapp.pending_summaries = 0 →
        (mapp.update_summary i text).pending_summaries = 0)
    ∧ (mapp.pending_status = 0 →
        (mapp.update_status i st).pending_status = 0) := by
  refine ⟨?_, ?_, ?_, ?_, ?_, ?_⟩
  · intro hget
    unfold SingleSelectApp.update_summary
    rw [hget]
    constructor
    · intro hp
      simp only [hp, reduceIte]
    · intro hp
      simp only [hp, Bool.false_eq_true, if_false]
  · intro h0
    unfold SingleSelectApp.update_summary
    cases sapp.items.get? i with
    | none => exact h0
    | some item =>
      dsimp only
      rw [h0]
      split <;> rfl
  · intro h0
    unfold SingleSelectApp.update_status
    cases sapp.items.get? i with
    | none => exact h0
    | some item =>
      dsimp only
      rw [h0]
      split <;> rfl
  · intro hget
    unfold MultiSelectApp.update_summary
    rw [hget]
    constructor
    · intro hp
      simp only [hp, reduceIte]
    · intro hp
      simp only [hp, Bool.false_eq_true, if_false]
  · intro h0
    unfold MultiSelectApp.update_summary
    cases mapp.items.get? i with
    | none => exact h0
    | some item =>
      dsimp only
      rw [h0]
      split <;> rfl
  · intro h0
    unfold MultiSelectApp.update_status
    cases mapp.items.get? i with
    | none => exact h0
    | some item =>
      dsimp only
      rw [h0]
      split <;> rfl

/-- C10 witness: on a one-item list whose summary is already `Done`, a
duplicate `SummaryReady` leaves `pending_summaries` unchanged, and both
zero counters stay zero, in both variants. -/
theorem C10_pending_summaries_saturating_guarded_decrement_witness :
    (((SingleSelectApp.new [⟨"b", Option.none, SummaryState.done "x"⟩]).update_summary
        0 "y").pending_summaries
      = (SingleSelectApp.new [⟨"b", Option.none, SummaryState.done "x"⟩]).pending_summaries)
    ∧ (((MultiSelectApp.new [⟨"b", Option.none, SummaryState.done "x"⟩]).update_summary
        0 "y").pending_summaries
      = (MultiSelectApp.new [⟨"b", Option.none, SummaryState.done "x"⟩]).pending_summaries)
    ∧ (((SingleSelectApp.new [⟨"b", Option.none, SummaryState.done "x"⟩]).update_summary
        0 "y").pending_summaries = 0) := by
  have h := C10_pending_summaries_saturating_guarded_decrement
    (SingleSelectApp.new [⟨"b", Option.none, SummaryState.done "x"⟩])
    (MultiSelectApp.new [⟨"b", Option.none, SummaryState.done "x"⟩]) 0
    ⟨"b", Option.none, SummaryState.done "x"⟩ "y" ⟨false, false, false, 0, 0, 0, 0, 0⟩
  exact ⟨(h.1 (by decide)).2 rfl, (h.2.2.2.1 (by decide)).2 rfl, h.2.1 rfl⟩

/-! ## Claim C5 -/

/-- C5: `get_selected_indices` (the value `confirm` returns in the
multi-select loop) lists exactly the indices whose selected flag is true,
in strictly ascending index order, and depends only on the final flag
vector (so the order in which `toggle_current` / `select_all` /
`deselect_all` produced those flags is irrelevant); after `select_all` it
is the full ascending range, in particular `0..N-1` for a freshly
constructed model over `N` items. -/
theorem C5_selected_indices_ascending
    (app app2 : MultiSelectApp) (items : List WorktreeItem) (i : Nat) :
    List.Pairwise (· < ·) app.get_selected_indices
    ∧ (i ∈ app.get_selected_indices ↔ app.selected.get? i = some true)
    ∧ app.select_all.get_selected_indices = List.range app.selected.length
    ∧ (MultiSelectApp.new items).select_all.get_selected_indices
        = List.range items.length
    ∧ (app.selected = app2.selected →
        app.get_selected_indices = app2.get_selected_indices) := by
  refine ⟨?_, ?_, ?_, ?_, ?_⟩
  · unfold MultiSelectApp.get_selected_indices
    rw [List.enum_eq_enumFrom]
    exact selIndices_enumFrom_sorted app.selected 0
  · unfold MultiSelectApp.get_selected_indices
    rw [List.enum_eq_enumFrom, selIndices_enumFrom_mem]
    constructor
    · rintro ⟨j, hj, hget⟩
      have : i = j := by omega
      rw [this]
      exact hget
    · intro hget
      exact ⟨i, by omega, hget⟩
  · unfold MultiSelectApp.get_selected_indices MultiSelectApp.select_all
    rw [List.enum_eq_enumFrom, selIndices_enumFrom_all_true,
      List.range_eq_range']
  · unfold MultiSelectApp.get_selected_indices MultiSelectApp.select_all
      MultiSelectApp.new
    rw [List.enum_eq_enumFrom, selIndices_enumFrom_all_true,
      List.range_eq_range', List.length_replicate]
  · intro hsel
    unfold MultiSelectApp.get_selected_indices
    rw [hsel]

/-- C5 witness: selecting all of a concrete two-item list and confirming
returns `[0, 1]`, ascending, and the result only depends on the flags. -/
theorem C5_selected_indices_ascending_witness :
    (MultiSelectApp.new [⟨"a", Option.none, SummaryState.none⟩,
        ⟨"b", Option.none, SummaryState.none⟩]).select_all.get_selected_indices
      = List.range 2
    ∧ List.Pairwise (· < ·)
        (MultiSelectApp.new [⟨"a", Option.none, SummaryState.none⟩,
          ⟨"b", Option.none, SummaryState.none⟩]).get_selected_indices := by
  have h := C5_selected_indices_ascending
    (MultiSelectApp.new [⟨"a", Option.none, SummaryState.none⟩,
      ⟨"b", Option.none, SummaryState.none⟩])
    (MultiSelectApp.new [⟨"a", Option.none, SummaryState.none⟩,
      ⟨"b", Option.none, SummaryState.none⟩])
    [⟨"a", Option.none, SummaryState.none⟩,
      ⟨"b", Option.none, SummaryState.none⟩] 0
  exact ⟨h.2.2.2.1, h.1⟩

/-! ## Claim C4 -/

/-- C4: in the multi-select loop, confirming (Enter) with zero selected
indices breaks the loop with `none`, exactly the value produced by every
cancellation key (Escape, the quit key `q`, Ctrl-C): the caller cannot
distinguish a confirmed-empty selection from a cancellation. -/
theorem C4_confirm_empty_indistinguishable_from_cancel
    (app : MultiSelectApp) (h : app.get_selected_indices = []) :
    (app.on_key Key.enter).2 = some none
    ∧ (app.on_key Key.esc).2 = some none
    ∧ (app.on_key (Key.char 'q' false)).2 = some none
    ∧ (app.on_key (Key.char 'c' true)).2 = some none
    ∧ app.run_loop [SOp.key Key.enter] = app.run_loop [SOp.key Key.esc] := by
  have henter : (app.on_key Key.enter).2
      = some (if app.get_selected_indices.isEmpty then none
          else some app.get_selected_indices) := rfl
  have hempty : app.get_selected_indices.isEmpty = true := by
    rw [h]; rfl
  refine ⟨?_, rfl, rfl, rfl, ?_⟩
  · rw [henter, hempty]
    rfl
  · show (match app.on_key Key.enter with
      | (_, some r) => some r
      | (app2, none) => app2.run_loop []) = _
    have : app.on_key Key.enter
        = (app, some (if app.get_selected_indices.isEmpty then none
            else some app.get_selected_indices)) := rfl
    rw [this, hempty]
    rfl

/-- C4 witness: a freshly built one-item model with nothing selected
produces the same `none` from Enter as from Escape. -/
theorem C4_confirm_empty_indistinguishable_from_cancel_witness :
    ((MultiSelectApp.new [⟨"b", Option.none, SummaryState.none⟩]).on_key
        Key.enter).2 = some none
    ∧ ((MultiSelectApp.new [⟨"b", Option.none, SummaryState.none⟩]).on_key
        Key.esc).2 = some none := by
  have h := C4_confirm_empty_indistinguishable_from_cancel
    (MultiSelectApp.new [⟨"b", Option.none, SummaryState.none⟩]) (by decide)
  exact ⟨h.1, h.2.1⟩

/-! ## Claim C6 -/

/-- C6: the severity classification is a pure total function of
`(is_orphaned, has_uncommitted, has_unpushed)` — two statuses agreeing on
those three booleans produce the same glyph/color in both classification
sites (`build_worktree_list_item` and the `status` command) — and both
sites realise the spec's fixed priority order `orphaned >
uncommitted-and-unpushed > uncommitted-only > unpushed-only > clean`, with
orphaned outranking the other flags regardless of their values. -/
theorem C6_severity_pure_priority_order (s t : WorktreeStatus) :
    ((item_status_icon (some s)).1 = (spec_severity s).icon
      ∧ (item_status_icon (some s)).2.1 = (spec_severity s).color)
    ∧ status_run_icon_color s = ((spec_severity s).icon, (spec_severity s).color)
    ∧ (s.is_orphaned = true → spec_severity s = .orphaned)
    ∧ (s.is_orphaned = false → s.has_uncommitted = true → s.has_unpushed = true →
        spec_severity s = .uncommittedUnpushed)
    ∧ (s.is_orphaned = false → s.has_uncommitted = true → s.has_unpushed = false →
        spec_severity s = .uncommittedOnly)
    ∧ (s.is_orphaned = false → s.has_uncommitted = false → s.has_unpushed = true →
        spec_severity s = .unpushedOnly)
    ∧ (s.is_orphaned = false → s.has_uncommitted = false → s.has_unpushed = false →
        spec_severity s = .clean)
    ∧ (s.is_orphaned = t.is_orphaned → s.has_uncommitted = t.has_uncommitted →
        s.has_unpushed = t.has_unpushed →
        item_status_icon (some s) = item_status_icon (some t)
        ∧ status_run_icon_color s = status_run_icon_color t
        ∧ spec_severity s = spec_severity t) := by
  obtain ⟨o, u, p, m1, m2, m3, m4, m5⟩ := s
  obtain ⟨o2, u2, p2, n1, n2, n3, n4, n5⟩ := t
  cases o <;> cases u <;> cases p <;> cases o2 <;> cases u2 <;> cases p2 <;>
    simp_all [item_status_icon, status_run_icon_color, spec_severity,
      StatusClass.icon, StatusClass.color]

/-- C6 witness: an orphaned status with both other flags set is classified
orphaned, identically in both sites, with the cross glyph and red color. -/
theorem C6_severity_pure_priority_order_witness :
    spec_severity ⟨true, true, true, 1, 2, 3, 4, 5⟩ = StatusClass.orphaned
    ∧ status_run_icon_color ⟨true, true, true, 1, 2, 3, 4, 5⟩
        = ((spec_severity ⟨true, true, true, 1, 2, 3, 4, 5⟩).icon,
           (spec_severity ⟨true, true, true, 1, 2, 3, 4, 5⟩).color) := by
  have h := C6_severity_pure_priority_order
    ⟨true, true, true, 1, 2, 3, 4, 5⟩ ⟨true, true, true, 1, 2, 3, 4, 5⟩
  exact ⟨h.2.2.1 rfl, h.2.1⟩

/-! ## Claim C7 -/

/-- The prompt answer comes from some key of the trace. -/
theorem confirm_result_mem :
    ∀ (keys : List Key) (b : Bool), confirm_result keys = some b →
      ∃ k, k ∈ keys ∧ confirm_key k = some b := by
  intro keys
  induction keys with
  | nil => intro b h; simp [confirm_result] at h
  | cons k ks ih =>
    intro b h
    unfold confirm_result at h
    cases hk : confirm_key k with
    | none =>
      rw [hk] at h
      rcases ih b h with ⟨k2, hmem, hk2⟩
      exact ⟨k2, List.mem_cons_of_mem k hmem, hk2⟩
    | some b2 =>
      rw [hk] at h
      injection h with h
      exact ⟨k, List.mem_cons_self k ks, by rw [hk, h]⟩

/-- The only keys the prompt accepts as an affirmative answer are
`y` and `Y`. -/
theorem confirm_key_true_shape (k : Key) (h : confirm_key k = some true) :
    ∃ m, k = Key.char 'y' m ∨ k = Key.char 'Y' m := by
  cases k with
  | up => simp [confirm_key] at h
  | down => simp [confirm_key] at h
  | enter => simp [confirm_key] at h
  | esc => simp [confirm_key] at h
  | char c ctrl =>
    by_cases hy : c = 'y'
    · exact ⟨ctrl, Or.inl (by rw [hy])⟩
    by_cases hY : c = 'Y'
    · exact ⟨ctrl, Or.inr (by rw [hY])⟩
    by_cases hn : c = 'n'
    · rw [hn] at h
      simp [confirm_key] at h
    by_cases hN : c = 'N'
    · rw [hN] at h
      simp [confirm_key] at h
    by_cases hq : c = 'q'
    · rw [hq] at h
      simp [confirm_key] at h
    · exfalso
      have hval : confirm_key (Key.char c ctrl) = none := by
        simp [confirm_key, hy, hY, hn, hN, hq]
      rw [hval] at h
      exact Option.noConfusion h

/-- C7: once the interactive-cleanup confirmation gate fires for a
non-empty confirmed selection containing units with local changes, the
batch is deleted exactly when the prompt's answer is the explicit
affirmative (a `y`/`Y` key must occur in the trace); any other answer —
among them the neutral Enter, which answers `false` — aborts the whole
batch with no deletion. -/
theorem C7_gate_only_affirmative_proceeds
    (indices : List Nat) (keys : List Key) (b : Bool)
    (hne : indices ≠ []) (hres : confirm_result keys = some b) :
    (b = true →
      run_interactive_decision (some indices) true keys
        = CleanupOutcome.deleted indices)
    ∧ (b = false →
      run_interactive_decision (some indices) true keys
        = CleanupOutcome.aborted)
    ∧ (b = true →
      ∃ k, k ∈ keys ∧ ∃ m, (k = Key.char 'y' m ∨ k = Key.char 'Y' m))
    ∧ confirm_key Key.enter = some false := by
  have hie : indices.isEmpty = false := by
    cases indices with
    | nil => exact absurd rfl hne
    | cons a l => rfl
  refine ⟨?_, ?_, ?_, rfl⟩
  · intro hb
    rw [hb] at hres
    simp [run_interactive_decision, hie, hres]
  · intro hb
    rw [hb] at hres
    simp [run_interactive_decision, hie, hres]
  · intro hb
    rw [hb] at hres
    rcases confirm_result_mem keys true hres with ⟨k, hmem, hk⟩
    rcases confirm_key_true_shape k hk with ⟨m, hm⟩
    exact ⟨k, hmem, m, hm⟩

/-- C7 witness: with one selected risky unit, an ignored key followed by
the neutral Enter aborts the batch, while a `y` proceeds. -/
theorem C7_gate_only_affirmative_proceeds_witness :
    run_interactive_decision (some [0]) true [Key.char 'x' false, Key.enter]
      = CleanupOutcome.aborted
    ∧ run_interactive_decision (some [0]) true [Key.char 'y' false]
      = CleanupOutcome.deleted [0] := by
  have h1 := C7_gate_only_affirmative_proceeds [0]
    [Key.char 'x' false, Key.enter] false (by decide) (by decide)
  have h2 := C7_gate_only_affirmative_proceeds [0]
    [Key.char 'y' false] true (by decide) (by decide)
  exact ⟨h1.2.1 rfl, h2.1 rfl⟩

/-! ## Claim C3 -/

/-- C3 counterexample: on the empty item list the single-select loop
returns the very same value `none` for confirm (Enter) as for cancel
(Escape) — the two outcomes are not distinguishable, contrary to the
claim. -/
theorem C3_counterexample_empty_confirm_equals_cancel :
    (SingleSelectApp.new []).run_loop [SOp.key Key.enter]
      = (SingleSelectApp.new []).run_loop [SOp.key Key.esc]
    ∧ (SingleSelectApp.new []).run_loop [SOp.key Key.enter] = some none := by
  decide

/-- C3 (amended): for the empty item list, confirming and cancelling both
make `run_single_selection_async` return `None` — "confirmed with
nothing" collapses into "user declined"; cancellation is distinguishable
at the value level only from confirming a non-empty list, which returns
`Some cursor‑index` (initially `Some 0`). -/
theorem C3_empty_confirm_collapses_into_cancel (items : List WorktreeItem) :
    (items = [] →
      (SingleSelectApp.new items).run_loop [SOp.key Key.enter] = some none
      ∧ (SingleSelectApp.new items).run_loop [SOp.key Key.esc] = some none)
    ∧ (items ≠ [] →
      (SingleSelectApp.new items).run_loop [SOp.key Key.enter] = some (some 0)
      ∧ (SingleSelectApp.new items).run_loop [SOp.key Key.esc] = some none
      ∧ some (0 : Nat) ≠ (none : Option Nat)) := by
  constructor
  · rintro rfl
    exact ⟨rfl, rfl⟩
  · intro hne
    cases items with
    | nil => exact absurd rfl hne
    | cons a l => exact ⟨rfl, rfl, by simp⟩

/-- C3 witness: concrete empty and one-item lists exercising both sides of
the amended statement. -/
theorem C3_empty_confirm_collapses_into_cancel_witness :
    (SingleSelectApp.new []).run_loop [SOp.key Key.enter] = some none
    ∧ (SingleSelectApp.new [⟨"b", Option.none, SummaryState.none⟩]).run_loop
        [SOp.key Key.enter] = some (some 0) := by
  have h1 := (C3_empty_confirm_collapses_into_cancel []).1 rfl
  have h2 := (C3_empty_confirm_collapses_into_cancel
    [⟨"b", Option.none, SummaryState.none⟩]).2 (by decide)
  exact ⟨h1.1, h2.1⟩

/-! ## Item-level effect of the three updates (single-select) -/

/-- Effect of `update_status` on the targeted item. -/
theorem SingleSelectApp.update_status_get_self (app : SingleSelectApp)
    (i : Nat) (br : String) (stt : Option WorktreeStatus) (sum : SummaryState)
    (st : WorktreeStatus) (h : app.items.get? i = some ⟨br, stt, sum⟩) :
    (app.update_status i st).items.get? i
      = some ⟨br, some st,
          if (st.has_uncommitted && !st.is_orphaned && sum.isNoneState) = true
          then SummaryState.queued else sum⟩ := by
  have hlt : i < app.items.length := lt_of_get?_some _ i _ h
  unfold SingleSelectApp.update_status
  rw [h]
  dsimp only
  rcases Bool.eq_false_or_eq_true
      (st.has_uncommitted && !st.is_orphaned && SummaryState.isNoneState sum)
    with hq | hq
  · simp only [hq, reduceIte]
    exact get?_set_self _ _ _ hlt
  · simp only [hq, Bool.false_eq_true, if_false]
    exact get?_set_self _ _ _ hlt

/-- Effect of `update_summary_started` on the targeted item. -/
theorem SingleSelectApp.update_summary_started_get_self (app : SingleSelectApp)
    (i : Nat) (br : String) (stt : Option WorktreeStatus) (sum : SummaryState)
    (h : app.items.get? i = some ⟨br, stt, sum⟩) :
    (app.update_summary_started i).items.get? i
      = some ⟨br, stt, SummaryState.summarizing⟩ := by
  have hlt : i < app.items.length := lt_of_get?_some _ i _ h
  unfold SingleSelectApp.update_summary_started
  rw [h]
  exact get?_set_self _ _ _ hlt

/-- Effect of `update_summary` on the targeted item. -/
theorem SingleSelectApp.update_summary_get_self (app : SingleSelectApp)
    (i : Nat) (br : String) (stt : Option WorktreeStatus) (sum : SummaryState)
    (text : String) (h : app.items.get? i = some ⟨br, stt, sum⟩) :
    (app.update_summary i text).items.get? i
      = some ⟨br, stt, SummaryState.done text⟩ := by
  have hlt : i < app.items.length := lt_of_get?_some _ i _ h
  unfold SingleSelectApp.update_summary
  rw [h]
  exact get?_set_self _ _ _ hlt

/-! ## Claim C8 -/

/-- C8 counterexample: a unit whose status shows uncommitted changes and
is not orphaned (so the summary probe is not skipped) whose summary probe
returns no summary: the task sends `SummaryStarted` and zero terminal
`SummaryReady` events, contradicting "followed by exactly one". -/
theorem C8_counterexample_started_without_ready :
    spawn_task_events 0 ⟨false, true, false, 1, 0, 2, 0, 0⟩ none
      = [WorktreeUpdate.Status 0 ⟨false, true, false, 1, 0, 2, 0, 0⟩,
         WorktreeUpdate.SummaryStarted 0]
    ∧ WorktreeUpdate.SummaryStarted 0
        ∈ spawn_task_events 0 ⟨false, true, false, 1, 0, 2, 0, 0⟩ none
    ∧ countSummaries (spawn_task_events 0 ⟨false, true, false, 1, 0, 2, 0, 0⟩ none)
        = 0 := by
  decide

/-- C8 (amended): a background task sends `SummaryStarted{i}` exactly when
the status showed uncommitted changes and not orphaned, and it is then
followed by at most one terminal `SummaryReady{i}` — exactly one when the
summary probe returns a summary, none when the probe returns nothing.
When the probe is skipped, the event list is just the status event and
folding it into the model leaves the item's summary `None` forever. -/
theorem C8_started_then_at_most_one_ready (i : Nat) (st : WorktreeStatus)
    (osum : Option String) :
    ((WorktreeUpdate.SummaryStarted i ∈ spawn_task_events i st osum)
      ↔ (st.has_uncommitted && !st.is_orphaned) = true)
    ∧ countSummaries (spawn_task_events i st osum)
        = (if (st.has_uncommitted && !st.is_orphaned) = true ∧ osum.isSome = true
           then 1 else 0)
    ∧ ((st.has_uncommitted && !st.is_orphaned) = false →
        spawn_task_events i st osum = [WorktreeUpdate.Status i st])
    ∧ (∀ s, osum = some s → (st.has_uncommitted && !st.is_orphaned) = true →
        spawn_task_events i st osum
          = [WorktreeUpdate.Status i st, WorktreeUpdate.SummaryStarted i,
             WorktreeUpdate.Summary i s])
    ∧ (osum = none → (st.has_uncommitted && !st.is_orphaned) = true →
        spawn_task_events i st osum
          = [WorktreeUpdate.Status i st, WorktreeUpdate.SummaryStarted i])
    ∧ ((st.has_uncommitted && !st.is_orphaned) = false →
        ∀ (items : List WorktreeItem) (br : String),
          items.get? i = some ⟨br, Option.none, SummaryState.none⟩ →
          ((spawn_task_events i st osum).foldl SingleSelectApp.apply
              (SingleSelectApp.new items)).items.get? i
            = some ⟨br, some st, SummaryState.none⟩) := by
  rcases Bool.eq_false_or_eq_true (st.has_uncommitted && !st.is_orphaned)
    with hn | hn
  · cases osum with
    | none =>
      refine ⟨?_, ?_, ?_, ?_, ?_, ?_⟩ <;>
        simp [spawn_task_events, countSummaries, hn]
    | some str =>
      refine ⟨?_, ?_, ?_, ?_, ?_, ?_⟩ <;>
        simp [spawn_task_events, countSummaries, hn]
  · refine ⟨?_, ?_, ?_, ?_, ?_, ?_⟩ <;>
      try simp [spawn_task_events, countSummaries, hn]
    intro items br hget
    have hget0 : (SingleSelectApp.new items).items.get? i
        = some ⟨br, Option.none, SummaryState.none⟩ := by
      simpa using hget
    have hup := SingleSelectApp.update_status_get_self (SingleSelectApp.new items)
      i br Option.none SummaryState.none st hget0
    have hcond : (st.has_uncommitted && !st.is_orphaned
        && SummaryState.isNoneState SummaryState.none) = false := by
      simp [hn]
    rw [hcond] at hup
    simp only [Bool.false_eq_true, if_false] at hup
    simpa [SingleSelectApp.apply] using hup

/-- C8 witness: a clean status sends only the status event, leaving the
summary `None`, while an uncommitted status whose probe answers sends
exactly one terminal summary event. -/
theorem C8_started_then_at_most_one_ready_witness :
    spawn_task_events 0 ⟨false, false, false, 0, 0, 0, 0, 0⟩ none
      = [WorktreeUpdate.Status 0 ⟨false, false, false, 0, 0, 0, 0, 0⟩]
    ∧ countSummaries
        (spawn_task_events 0 ⟨false, true, false, 1, 0, 2, 0, 0⟩ (some "s")) = 1 := by
  have h1 := C8_started_then_at_most_one_ready 0
    ⟨false, false, false, 0, 0, 0, 0, 0⟩ none
  have h2 := C8_started_then_at_most_one_ready 0
    ⟨false, true, false, 1, 0, 2, 0, 0⟩ (some "s")
  refine ⟨h1.2.2.1 rfl, ?_⟩
  rw [h2.2.1]
  decide

/-! ## Claim C9: cursor well-formedness -/

/-- Cursor invariant of the single-select model: the cursor is absent
exactly on the empty list and otherwise in bounds. -/
def SingleWF (app : SingleSelectApp) : Prop :=
  (app.list_state = none ↔ app.items = [])
  ∧ ∀ i, app.list_state = some i → i < app.items.length

/-- Cursor invariant of the multi-select model, together with the flag
vector having the same length as the item list. -/
def MultiWF (app : MultiSelectApp) : Prop :=
  (app.list_state = none ↔ app.items = [])
  ∧ (∀ i, app.list_state = some i → i < app.items.length)
  ∧ app.selected.length = app.items.length

/-- Transfer of the invariant along operations that keep the cursor and
the item-list length (single-select). -/
theorem single_wf_of_same {app app2 : SingleSelectApp}
    (hls : app2.list_state = app.list_state)
    (hlen : app2.items.length = app.items.length)
    (h : SingleWF app) : SingleWF app2 := by
  constructor
  · rw [hls, ← List.length_eq_zero, hlen, List.length_eq_zero]
    exact h.1
  · intro i hi
    rw [hlen]
    exact h.2 i (hls ▸ hi)

/-- The invariant holds at construction (single-select). -/
theorem SingleSelectApp.single_new_wf (items : List WorktreeItem) :
    SingleWF (SingleSelectApp.new items) := by
  cases items with
  | nil =>
    exact ⟨by simp [SingleSelectApp.new], fun i h => by
      simp [SingleSelectApp.new] at h⟩
  | cons a l =>
    refine ⟨by simp [SingleSelectApp.new], ?_⟩
    intro i h
    have h0 : (0 : Nat) = i := Option.some.inj h
    show i < (a :: l).length
    rw [List.length_cons]
    omega

/-- `move_up` preserves the invariant (single-select). -/
theorem SingleSelectApp.single_move_up_wf (app : SingleSelectApp)
    (h : SingleWF app) : SingleWF app.move_up := by
  unfold SingleSelectApp.move_up
  rcases Bool.eq_false_or_eq_true app.items.isEmpty with he | he
  · rw [he]
    simp only [reduceIte]
    exact h
  · rw [he]
    simp only [Bool.false_eq_true, if_false]
    have hne : app.items ≠ [] := by
      intro hnil
      rw [hnil] at he
      simp at he
    have hpos : 0 < app.items.length := List.length_pos.mpr hne
    constructor
    · simp [hne]
    · intro i hi
      simp only [Option.some.injEq] at hi
      cases hls : app.list_state with
      | none =>
        rw [hls] at hi
        have h0 : (0 : Nat) = i := hi
        show i < app.items.length
        omega
      | some j =>
        have hj := h.2 j hls
        rw [hls] at hi
        have h0 : j - 1 = i := hi
        show i < app.items.length
        omega

/-- `move_down` preserves the invariant (single-select). -/
theorem SingleSelectApp.single_move_down_wf (app : SingleSelectApp)
    (h : SingleWF app) : SingleWF app.move_down := by
  unfold SingleSelectApp.move_down
  rcases Bool.eq_false_or_eq_true app.items.isEmpty with he | he
  · rw [he]
    simp only [reduceIte]
    exact h
  · rw [he]
    simp only [Bool.false_eq_true, if_false]
    have hne : app.items ≠ [] := by
      intro hnil
      rw [hnil] at he
      simp at he
    have hpos : 0 < app.items.length := List.length_pos.mpr hne
    constructor
    · simp [hne]
    · intro i hi
      simp only [Option.some.injEq] at hi
      cases hls : app.list_state with
      | none =>
        rw [hls] at hi
        have h0 : (0 : Nat) = i := hi
        show i < app.items.length
        omega
      | some j =>
        have hmin := min_le_right (j + 1) (app.items.length - 1)
        rw [hls] at hi
        have h0 : min (j + 1) (app.items.length - 1) = i := hi
        show i < app.items.length
        omega

/-- Key handling preserves the invariant (single-select). -/
theorem SingleSelectApp.single_on_key_wf (app : SingleSelectApp) (k : Key)
    (h : SingleWF app) : SingleWF (app.on_key k).1 := by
  unfold SingleSelectApp.on_key
  split
  · exact app.single_move_up_wf h
  · exact app.single_move_up_wf h
  · exact app.single_move_down_wf h
  · exact app.single_move_down_wf h
  · exact h
  · exact h
  · exact h
  · exact h
  · exact h

/-- The three updates keep the cursor and the item-list length
(single-select). -/
theorem SingleSelectApp.single_apply_same_shape (app : SingleSelectApp)
    (u : WorktreeUpdate) :
    (app.apply u).list_state = app.list_state
    ∧ (app.apply u).items.length = app.items.length := by
  cases u with
  | Status index status =>
    show (app.update_status index status).list_state = app.list_state
      ∧ (app.update_status index status).items.length = app.items.length
    unfold SingleSelectApp.update_status
    cases hget : app.items.get? index with
    | none => exact ⟨rfl, rfl⟩
    | some item => exact ⟨rfl, List.length_set _ _ _⟩
  | SummaryStarted index =>
    show (app.update_summary_started index).list_state = app.list_state
      ∧ (app.update_summary_started index).items.length = app.items.length
    unfold SingleSelectApp.update_summary_started
    cases hget : app.items.get? index with
    | none => exact ⟨rfl, rfl⟩
    | some item => exact ⟨rfl, List.length_set _ _ _⟩
  | Summary index summary =>
    show (app.update_summary index summary).list_state = app.list_state
      ∧ (app.update_summary index summary).items.length = app.items.length
    unfold SingleSelectApp.update_summary
    cases hget : app.items.get? index with
    | none => exact ⟨rfl, rfl⟩
    | some item => exact ⟨rfl, List.length_set _ _ _⟩

/-- Every loop activity preserves the invariant (single-select). -/
theorem SingleSelectApp.single_step_wf (app : SingleSelectApp) (op : SOp)
    (h : SingleWF app) : SingleWF (app.step op) := by
  cases op with
  | tick => exact single_wf_of_same rfl rfl h
  | key k => exact app.single_on_key_wf k h
  | upd u =>
    have hs := app.single_apply_same_shape u
    exact single_wf_of_same hs.1 hs.2 h

/-- Every reachable single-select state satisfies the invariant. -/
theorem SingleSelectApp.single_run_wf (items : List WorktreeItem) (ops : List SOp) :
    SingleWF ((SingleSelectApp.new items).run ops) := by
  suffices hgen : ∀ (ops : List SOp) (app : SingleSelectApp),
      SingleWF app → SingleWF (app.run ops) from
    hgen ops _ (SingleSelectApp.single_new_wf items)
  intro ops
  induction ops with
  | nil => intro app h; exact h
  | cons op ops ih => intro app h; exact ih (app.step op) (app.single_step_wf op h)

/-- Transfer of the invariant along operations that keep the cursor, the
item-list length and the flag-vector length (multi-select). -/
theorem multi_wf_of_same {app app2 : MultiSelectApp}
    (hls : app2.list_state = app.list_state)
    (hlen : app2.items.length = app.items.length)
    (hsel : app2.selected.length = app.selected.length)
    (h : MultiWF app) : MultiWF app2 := by
  refine ⟨?_, ?_, ?_⟩
  · rw [hls, ← List.length_eq_zero, hlen, List.length_eq_zero]
    exact h.1
  · intro i hi
    rw [hlen]
    exact h.2.1 i (hls ▸ hi)
  · rw [hsel, hlen]
    exact h.2.2

/-- The invariant holds at construction (multi-select). -/
theorem MultiSelectApp.multi_new_wf (items : List WorktreeItem) :
    MultiWF (MultiSelectApp.new items) := by
  cases items with
  | nil =>
    exact ⟨by simp [MultiSelectApp.new], fun i h => by
      simp [MultiSelectApp.new] at h, by simp [MultiSelectApp.new]⟩
  | cons a l =>
    refine ⟨by simp [MultiSelectApp.new], ?_, by
      simp [MultiSelectApp.new]⟩
    intro i h
    have h0 : (0 : Nat) = i := Option.some.inj h
    show i < (a :: l).length
    rw [List.length_cons]
    omega

/-- `move_up` preserves the invariant (multi-select). -/
theorem MultiSelectApp.multi_move_up_wf (app : MultiSelectApp)
    (h : MultiWF app) : MultiWF app.move_up := by
  unfold MultiSelectApp.move_up
  rcases Bool.eq_false_or_eq_true app.items.isEmpty with he | he
  · rw [he]
    simp only [reduceIte]
    exact h
  · rw [he]
    simp only [Bool.false_eq_true, if_false]
    have hne : app.items ≠ [] := by
      intro hnil
      rw [hnil] at he
      simp at he
    have hpos : 0 < app.items.length := List.length_pos.mpr hne
    refine ⟨by simp [hne], ?_, h.2.2⟩
    intro i hi
    simp only [Option.some.injEq] at hi
    cases hls : app.list_state with
    | none =>
      rw [hls] at hi
      have h0 : (0 : Nat) = i := hi
      show i < app.items.length
      omega
    | some j =>
      have hj := h.2.1 j hls
      rw [hls] at hi
      have h0 : j - 1 = i := hi
      show i < app.items.length
      omega

/-- `move_down` preserves the invariant (multi-select). -/
theorem MultiSelectApp.multi_move_down_wf (app : MultiSelectApp)
    (h : MultiWF app) : MultiWF app.move_down := by
  unfold MultiSelectApp.move_down
  rcases Bool.eq_false_or_eq_true app.items.isEmpty with he | he
  · rw [he]
    simp only [reduceIte]
    exact h
  · rw [he]
    simp only [Bool.false_eq_true, if_false]
    have hne : app.items ≠ [] := by
      intro hnil
      rw [hnil] at he
      simp at he
    have hpos : 0 < app.items.length := List.length_pos.mpr hne
    refine ⟨by simp [hne], ?_, h.2.2⟩
    intro i hi
    simp only [Option.some.injEq] at hi
    cases hls : app.list_state with
    | none =>
      rw [hls] at hi
      have h0 : (0 : Nat) = i := hi
      show i < app.items.length
      omega
    | some j =>
      have hmin := min_le_right (j + 1) (app.items.length - 1)
      rw [hls] at hi
      have h0 : min (j + 1) (app.items.length - 1) = i := hi
      show i < app.items.length
      omega

/-- `toggle_current` (total version) preserves the invariant. -/
theorem MultiSelectApp.toggle_current_wf (app : MultiSelectApp)
    (h : MultiWF app) : MultiWF app.toggle_current := by
  unfold MultiSelectApp.toggle_current
  cases hls : app.list_state with
  | none => exact h
  | some idx =>
    refine multi_wf_of_same ?_ ?_ ?_ h
    · rw [hls]
    · rfl
    · exact List.length_set _ _ _

/-- `select_all` and `deselect_all` preserve the invariant. -/
theorem MultiSelectApp.select_all_wf (app : MultiSelectApp)
    (h : MultiWF app) : MultiWF app.select_all ∧ MultiWF app.deselect_all := by
  constructor
  · refine multi_wf_of_same ?_ ?_ ?_ h
    · rfl
    · rfl
    · exact List.length_map _ _
  · refine multi_wf_of_same ?_ ?_ ?_ h
    · rfl
    · rfl
    · exact List.length_map _ _

/-- Key handling preserves the invariant (multi-select). -/
theorem MultiSelectApp.multi_on_key_wf (app : MultiSelectApp) (k : Key)
    (h : MultiWF app) : MultiWF (app.on_key k).1 := by
  unfold MultiSelectApp.on_key
  split
  · exact app.multi_move_up_wf h
  · exact app.multi_move_up_wf h
  · exact app.multi_move_down_wf h
  · exact app.multi_move_down_wf h
  · exact app.toggle_current_wf h
  · exact (app.select_all_wf h).1
  · exact (app.select_all_wf h).2
  · exact h
  · exact h
  · exact h
  · exact h
  · exact h

/-- The three updates keep cursor, item-list length and flag vector
(multi-select). -/
theorem MultiSelectApp.multi_apply_same_shape (app : MultiSelectApp)
    (u : WorktreeUpdate) :
    (app.apply u).list_state = app.list_state
    ∧ (app.apply u).items.length = app.items.length
    ∧ (app.apply u).selected = app.selected := by
  cases u with
  | Status index status =>
    show (app.update_status index status).list_state = app.list_state
      ∧ (app.update_status index status).items.length = app.items.length
      ∧ (app.update_status index status).selected = app.selected
    unfold MultiSelectApp.update_status
    cases hget : app.items.get? index with
    | none => exact ⟨rfl, rfl, rfl⟩
    | some item => exact ⟨rfl, List.length_set _ _ _, rfl⟩
  | SummaryStarted index =>
    show (app.update_summary_started index).list_state = app.list_state
      ∧ (app.update_summary_started index).items.length = app.items.length
      ∧ (app.update_summary_started index).selected = app.selected
    unfold MultiSelectApp.update_summary_started
    cases hget : app.items.get? index with
    | none => exact ⟨rfl, rfl, rfl⟩
    | some item => exact ⟨rfl, List.length_set _ _ _, rfl⟩
  | Summary index summary =>
    show (app.update_summary index summary).list_state = app.list_state
      ∧ (app.update_summary index summary).items.length = app.items.length
      ∧ (app.update_summary index summary).selected = app.selected
    unfold MultiSelectApp.update_summary
    cases hget : app.items.get? index with
    | none => exact ⟨rfl, rfl, rfl⟩
    | some item => exact ⟨rfl, List.length_set _ _ _, rfl⟩

/-- Every loop activity preserves the invariant (multi-select). -/
theorem MultiSelectApp.multi_step_wf (app : MultiSelectApp) (op : SOp)
    (h : MultiWF app) : MultiWF (app.step op) := by
  cases op with
  | tick => exact multi_wf_of_same rfl rfl rfl h
  | key k => exact app.multi_on_key_wf k h
  | upd u =>
    have hs := app.multi_apply_same_shape u
    have hsel : (app.apply u).selected.length = app.selected.length := by
      rw [hs.2.2]
    exact multi_wf_of_same hs.1 hs.2.1 hsel h

/-- Every reachable multi-select state satisfies the invariant. -/
theorem MultiSelectApp.multi_run_wf (items : List WorktreeItem) (ops : List SOp) :
    MultiWF ((MultiSelectApp.new items).run ops) := by
  suffices hgen : ∀ (ops : List SOp) (app : MultiSelectApp),
      MultiWF app → MultiWF (app.run ops) from
    hgen ops _ (MultiSelectApp.multi_new_wf items)
  intro ops
  induction ops with
  | nil => intro app h; exact h
  | cons op ops ih => intro app h; exact ih (app.step op) (app.multi_step_wf op h)

/-- Under the invariant, the panic-faithful `toggle_current` succeeds and
agrees with the total model. -/
theorem MultiSelectApp.toggle_current?_of_wf (app : MultiSelectApp)
    (h : MultiWF app) : app.toggle_current? = some app.toggle_current := by
  cases hls : app.list_state with
  | none =>
    unfold MultiSelectApp.toggle_current? MultiSelectApp.toggle_current
    rw [hls]
  | some idx =>
    have hlt : idx < app.selected.length := by
      rw [h.2.2]
      exact h.2.1 idx hls
    have hgd : app.selected.getD idx false = app.selected.get ⟨idx, hlt⟩ := by
      rw [List.getD_eq_getD_get?, List.get?_eq_get hlt]
      rfl
    unfold MultiSelectApp.toggle_current? MultiSelectApp.toggle_current
    rw [hls]
    dsimp only
    rw [dif_pos hlt, hgd]

/-- Under the invariant, `toggle_current` on an empty item list is a
no-op. -/
theorem MultiSelectApp.toggle_current_empty (app : MultiSelectApp)
    (h : MultiWF app) (hempty : app.items = []) :
    app.toggle_current = app := by
  have hls : app.list_state = none := h.1.mpr hempty
  unfold MultiSelectApp.toggle_current
  rw [hls]

/-- C9: in both selection variants, along every sequence of loop
activities from construction, the cursor is `none` exactly when the item
list is empty and otherwise holds an index strictly below the item count;
consequently `toggle_current`'s direct index into the `selected` vector
is always in bounds — the panic-faithful model returns `some` (never the
panic value `none`) and agrees with the total model — and `toggle_current`
on an empty list is a no-op. -/
theorem C9_cursor_in_bounds_toggle_no_panic
    (items : List WorktreeItem) (ops : List SOp) :
    (((SingleSelectApp.new items).run ops).list_state = none
      ↔ ((SingleSelectApp.new items).run ops).items = [])
    ∧ (∀ i, ((SingleSelectApp.new items).run ops).list_state = some i →
        i < ((SingleSelectApp.new items).run ops).items.length)
    ∧ (((MultiSelectApp.new items).run ops).list_state = none
      ↔ ((MultiSelectApp.new items).run ops).items = [])
    ∧ (∀ i, ((MultiSelectApp.new items).run ops).list_state = some i →
        i < ((MultiSelectApp.new items).run ops).items.length)
    ∧ ((MultiSelectApp.new items).run ops).toggle_current?
        = some ((MultiSelectApp.new items).run ops).toggle_current
    ∧ (((MultiSelectApp.new items).run ops).items = [] →
        ((MultiSelectApp.new items).run ops).toggle_current
          = (MultiSelectApp.new items).run ops) := by
  have hs := SingleSelectApp.single_run_wf items ops
  have hm := MultiSelectApp.multi_run_wf items ops
  exact ⟨hs.1, hs.2, hm.1, hm.2.1,
    MultiSelectApp.toggle_current?_of_wf _ hm,
    fun he => MultiSelectApp.toggle_current_empty _ hm he⟩

/-- C9 witness: after moving down and toggling on a concrete two-item
list the cursor is in bounds and the panic-faithful toggle succeeds; on
the empty list toggling is a no-op. -/
theorem C9_cursor_in_bounds_toggle_no_panic_witness :
    ((MultiSelectApp.new [⟨"a", Option.none, SummaryState.none⟩,
        ⟨"b", Option.none, SummaryState.none⟩]).run
        [SOp.key Key.down, SOp.key (Key.char ' ' false)]).toggle_current?
      = some ((MultiSelectApp.new [⟨"a", Option.none, SummaryState.none⟩,
          ⟨"b", Option.none, SummaryState.none⟩]).run
          [SOp.key Key.down, SOp.key (Key.char ' ' false)]).toggle_current
    ∧ ((MultiSelectApp.new []).run []).toggle_current
        = (MultiSelectApp.new []).run [] := by
  have h1 := C9_cursor_in_bounds_toggle_no_panic
    [⟨"a", Option.none, SummaryState.none⟩,
     ⟨"b", Option.none, SummaryState.none⟩]
    [SOp.key Key.down, SOp.key (Key.char ' ' false)]
  have h2 := C9_cursor_in_bounds_toggle_no_panic ([] : List WorktreeItem) []
  exact ⟨h1.2.2.2.2.1, h2.2.2.2.2.2 rfl⟩

/-! ## Claim C1 -/

/-- Summary state of item `i` after applying the first `k` producer events
for index `i` (status result `st`, summary-probe result `osum`) to a
freshly constructed single-select model. -/
def summaryAfter (items : List WorktreeItem) (i : Nat) (st : WorktreeStatus)
    (osum : Option String) (k : Nat) : Option SummaryState :=
  ((((spawn_task_events i st osum).take k).foldl SingleSelectApp.apply
      (SingleSelectApp.new items)).items.get? i).map
    (fun it => it.summary_state)

/-- Rank of an optional summary state (`none` counts as rank 0). -/
def toRank (o : Option SummaryState) : Nat :=
  (o.map SummaryState.rank).getD 0

/-- Before any event the item still holds its initial summary state. -/
theorem summaryAfter_zero (items : List WorktreeItem) (i : Nat)
    (st : WorktreeStatus) (osum : Option String) (it : WorktreeItem)
    (hget : items.get? i = some it) :
    summaryAfter items i st osum 0 = some it.summary_state := by
  show ((items.get? i).map (fun it => it.summary_state)) = _
  rw [hget]
  rfl

/-- After the status event alone, the summary is `Queued` exactly when the
status requests a summary. -/
theorem summaryAfter_one (items : List WorktreeItem) (i : Nat)
    (st : WorktreeStatus) (osum : Option String) (br : String)
    (hget : items.get? i = some ⟨br, Option.none, SummaryState.none⟩) :
    summaryAfter items i st osum 1
      = some (if (st.has_uncommitted && !st.is_orphaned) = true
          then SummaryState.queued else SummaryState.none) := by
  have h1 := SingleSelectApp.update_status_get_self (SingleSelectApp.new items)
    i br Option.none SummaryState.none st hget
  show ((((SingleSelectApp.new items).update_status i st).items.get? i).map
      (fun it => it.summary_state)) = _
  rw [h1]
  simp [SummaryState.isNoneState]

/-- When the status shows no uncommitted work (or orphaned), the summary
probe is skipped and the item's summary stays `None` after every prefix
of the producer's events. -/
theorem summaryAfter_skipped (items : List WorktreeItem) (i : Nat)
    (st : WorktreeStatus) (osum : Option String) (br : String)
    (hget : items.get? i = some ⟨br, Option.none, SummaryState.none⟩)
    (hn : (st.has_uncommitted && !st.is_orphaned) = false) :
    ∀ k, summaryAfter items i st osum k = some SummaryState.none := by
  intro k
  have hev : spawn_task_events i st osum = [WorktreeUpdate.Status i st] := by
    simp [spawn_task_events, hn]
  unfold summaryAfter
  rw [hev]
  cases k with
  | zero =>
    show ((items.get? i).map (fun it => it.summary_state)) = _
    rw [hget]
    rfl
  | succ k =>
    have htake : [WorktreeUpdate.Status i st].take (k + 1)
        = [WorktreeUpdate.Status i st] := by
      rw [List.take_succ_cons, List.take_nil]
    rw [htake]
    have h1 := SingleSelectApp.update_status_get_self (SingleSelectApp.new items)
      i br Option.none SummaryState.none st hget
    have hcond : (st.has_uncommitted && !st.is_orphaned
        && SummaryState.isNoneState SummaryState.none) = false := by
      simp [SummaryState.isNoneState, hn]
    rw [hcond] at h1
    simp only [Bool.false_eq_true, if_false] at h1
    show ((((SingleSelectApp.new items).update_status i st).items.get? i).map
        (fun it => it.summary_state)) = _
    rw [h1]
    rfl

/-- When a summary is needed, after the status event the item is `Queued`;
the `update_status_get_self` conclusion specialised to that case. -/
theorem summaryAfter_status_queued (items : List WorktreeItem) (i : Nat)
    (st : WorktreeStatus) (br : String)
    (hget : items.get? i = some ⟨br, Option.none, SummaryState.none⟩)
    (hn : (st.has_uncommitted && !st.is_orphaned) = true) :
    ((SingleSelectApp.new items).update_status i st).items.get? i
      = some ⟨br, some st, SummaryState.queued⟩ := by
  have h1 := SingleSelectApp.update_status_get_self (SingleSelectApp.new items)
    i br Option.none SummaryState.none st hget
  have hcond : (st.has_uncommitted && !st.is_orphaned
      && SummaryState.isNoneState SummaryState.none) = true := by
    simp [SummaryState.isNoneState, hn]
  rw [hcond] at h1
  simp only [reduceIte] at h1
  exact h1

/-- With the probe pending but never answering, every prefix of length at
least two of the producer's events leaves the item `Summarizing`. -/
theorem summaryAfter_no_answer (items : List WorktreeItem) (i : Nat)
    (st : WorktreeStatus) (br : String)
    (hget : items.get? i = some ⟨br, Option.none, SummaryState.none⟩)
    (hn : (st.has_uncommitted && !st.is_orphaned) = true) :
    ∀ k, summaryAfter items i st none (k + 2)
      = some SummaryState.summarizing := by
  intro k
  have hev : spawn_task_events i st none
      = [WorktreeUpdate.Status i st, WorktreeUpdate.SummaryStarted i] := by
    simp [spawn_task_events, hn]
  unfold summaryAfter
  rw [hev]
  have htake : [WorktreeUpdate.Status i st,
      WorktreeUpdate.SummaryStarted i].take (k + 2)
      = [WorktreeUpdate.Status i st, WorktreeUpdate.SummaryStarted i] := by
    rw [List.take_succ_cons, List.take_succ_cons, List.take_nil]
  rw [htake]
  have h1 := summaryAfter_status_queued items i st br hget hn
  have h2 := SingleSelectApp.update_summary_started_get_self
    ((SingleSelectApp.new items).update_status i st) i br (some st)
    SummaryState.queued h1
  show (((((SingleSelectApp.new items).update_status i st).update_summary_started
      i).items.get? i).map (fun it => it.summary_state)) = _
  rw [h2]
  rfl

/-- With the probe pending, the prefix of length two (status then
`SummaryStarted`) leaves the item `Summarizing` for any probe result. -/
theorem summaryAfter_two (items : List WorktreeItem) (i : Nat)
    (st : WorktreeStatus) (osum : Option String) (br : String)
    (hget : items.get? i = some ⟨br, Option.none, SummaryState.none⟩)
    (hn : (st.has_uncommitted && !st.is_orphaned) = true) :
    summaryAfter items i st osum 2 = some SummaryState.summarizing := by
  have htake : (spawn_task_events i st osum).take 2
      = [WorktreeUpdate.Status i st, WorktreeUpdate.SummaryStarted i] := by
    unfold spawn_task_events
    rw [hn]
    cases osum <;> rfl
  unfold summaryAfter
  rw [htake]
  have h1 := summaryAfter_status_queued items i st br hget hn
  have h2 := SingleSelectApp.update_summary_started_get_self
    ((SingleSelectApp.new items).update_status i st) i br (some st)
    SummaryState.queued h1
  show (((((SingleSelectApp.new items).update_status i st).update_summary_started
      i).items.get? i).map (fun it => it.summary_state)) = _
  rw [h2]
  rfl

/-- With the probe answering `sres`, every prefix of length at least three
leaves the item `Done sres`. -/
theorem summaryAfter_done (items : List WorktreeItem) (i : Nat)
    (st : WorktreeStatus) (sres : String) (br : String)
    (hget : items.get? i = some ⟨br, Option.none, SummaryState.none⟩)
    (hn : (st.has_uncommitted && !st.is_orphaned) = true) :
    ∀ k, summaryAfter items i st (some sres) (k + 3)
      = some (SummaryState.done sres) := by
  intro k
  have hev : spawn_task_events i st (some sres)
      = [WorktreeUpdate.Status i st, WorktreeUpdate.SummaryStarted i,
         WorktreeUpdate.Summary i sres] := by
    simp [spawn_task_events, hn]
  unfold summaryAfter
  rw [hev]
  have htake : [WorktreeUpdate.Status i st, WorktreeUpdate.SummaryStarted i,
      WorktreeUpdate.Summary i sres].take (k + 3)
      = [WorktreeUpdate.Status i st, WorktreeUpdate.SummaryStarted i,
         WorktreeUpdate.Summary i sres] := by
    rw [List.take_succ_cons, List.take_succ_cons, List.take_succ_cons,
      List.take_nil]
  rw [htake]
  have h1 := summaryAfter_status_queued items i st br hget hn
  have h2 := SingleSelectApp.update_summary_started_get_self
    ((SingleSelectApp.new items).update_status i st) i br (some st)
    SummaryState.queued h1
  have h3 := SingleSelectApp.update_summary_get_self
    (((SingleSelectApp.new items).update_status i st).update_summary_started i)
    i br (some st) SummaryState.summarizing sres h2
  show ((((((SingleSelectApp.new items).update_status i st).update_summary_started
      i).update_summary i sres).items.get? i).map
      (fun it => it.summary_state)) = _
  rw [h3]
  rfl

/-- C1 counterexample: the model applies stray summary updates instead of
ignoring them.  From the canonical initial state, a `SummaryReady` (state
`Done "a"`) followed by a `SummaryStarted` regresses the item to
`Summarizing`; and after a clean status (summary stays `None`), a stray
`SummaryStarted` is applied — the state becomes `Summarizing`, not
`None` — contradicting "once `Done` no update changes it" and "a
`SummaryStarted`/`SummaryReady` for a clean-`None` item is ignored". -/
theorem C1_counterexample_stray_updates_applied :
    ((((SingleSelectApp.new [⟨"b", Option.none, SummaryState.none⟩]).update_summary
        0 "a").update_summary_started 0).items.get? 0).map
        (fun it => it.summary_state)
      = some SummaryState.summarizing
    ∧ SummaryState.summarizing ≠ SummaryState.done "a"
    ∧ ((((SingleSelectApp.new [⟨"b", Option.none, SummaryState.none⟩]).update_status
        0 ⟨false, false, false, 0, 0, 0, 0, 0⟩).update_summary_started
        0).items.get? 0).map (fun it => it.summary_state)
      = some SummaryState.summarizing
    ∧ SummaryState.summarizing ≠ SummaryState.none := by
  decide

/-- C1 (amended): summary-state monotonicity holds for the update
sequences the producing side actually sends: updates for other indices or
out-of-bounds indices leave an item untouched (and never crash — an
out-of-bounds update is a no-op), and along every prefix of a producer
event sequence for index `i` the item's summary rank never decreases
(`None→Queued→Summarizing→Done`), staying `None` forever when the status
showed no uncommitted changes or orphaned.  The model itself, however,
applies stray `SummaryStarted`/`SummaryReady` updates unconditionally
rather than ignoring them (see the counterexample). -/
theorem C1_summary_monotonic_under_producer_events
    (app : SingleSelectApp) (u : WorktreeUpdate)
    (items : List WorktreeItem) (i : Nat) (br : String)
    (st : WorktreeStatus) (osum : Option String) :
    (u.index ≠ i → (app.apply u).items.get? i = app.items.get? i)
    ∧ (app.items.length ≤ u.index → app.apply u = app)
    ∧ (items.get? i = some ⟨br, Option.none, SummaryState.none⟩ →
        ∀ k, toRank (summaryAfter items i st osum k)
          ≤ toRank (summaryAfter items i st osum (k + 1)))
    ∧ (items.get? i = some ⟨br, Option.none, SummaryState.none⟩ →
        (st.has_uncommitted && !st.is_orphaned) = false →
        ∀ k, summaryAfter items i st osum k = some SummaryState.none) := by
  refine ⟨?_, ?_, ?_, ?_⟩
  · intro hne
    cases u with
    | Status index status =>
      show (app.update_status index status).items.get? i = app.items.get? i
      unfold SingleSelectApp.update_status
      cases hget : app.items.get? index with
      | none => rfl
      | some item =>
        dsimp only
        exact get?_set_ne _ app.items index i hne
    | SummaryStarted index =>
      show (app.update_summary_started index).items.get? i = app.items.get? i
      unfold SingleSelectApp.update_summary_started
      cases hget : app.items.get? index with
      | none => rfl
      | some item =>
        dsimp only
        exact get?_set_ne _ app.items index i hne
    | Summary index summary =>
      show (app.update_summary index summary).items.get? i = app.items.get? i
      unfold SingleSelectApp.update_summary
      cases hget : app.items.get? index with
      | none => rfl
      | some item =>
        dsimp only
        exact get?_set_ne _ app.items index i hne
  · intro hle
    cases u with
    | Status index status =>
      have hnone : app.items.get? index = none := List.get?_eq_none.mpr hle
      show app.update_status index status = app
      unfold SingleSelectApp.update_status
      rw [hnone]
    | SummaryStarted index =>
      have hnone : app.items.get? index = none := List.get?_eq_none.mpr hle
      show app.update_summary_started index = app
      unfold SingleSelectApp.update_summary_started
      rw [hnone]
    | Summary index summary =>
      have hnone : app.items.get? index = none := List.get?_eq_none.mpr hle
      show app.update_summary index summary = app
      unfold SingleSelectApp.update_summary
      rw [hnone]
  · intro hget k
    rcases Bool.eq_false_or_eq_true (st.has_uncommitted && !st.is_orphaned)
      with hn | hn
    · cases osum with
      | none =>
        rcases k with _ | _ | k
        · rw [summaryAfter_zero items i st none
              ⟨br, Option.none, SummaryState.none⟩ hget,
            summaryAfter_one items i st none br hget]
          simp [toRank, SummaryState.rank, hn]
        · rw [summaryAfter_one items i st none br hget,
            summaryAfter_two items i st none br hget hn]
          simp [toRank, SummaryState.rank, hn]
        · have heq : k + 2 + 1 = (k + 1) + 2 := by omega
          rw [heq, summaryAfter_no_answer items i st br hget hn (k + 1),
            summaryAfter_no_answer items i st br hget hn k]
      | some sres =>
        rcases k with _ | _ | _ | k
        · rw [summaryAfter_zero items i st (some sres)
              ⟨br, Option.none, SummaryState.none⟩ hget,
            summaryAfter_one items i st (some sres) br hget]
          simp [toRank, SummaryState.rank, hn]
        · rw [summaryAfter_one items i st (some sres) br hget,
            summaryAfter_two items i st (some sres) br hget hn]
          simp [toRank, SummaryState.rank, hn]
        · have heq : (2 : Nat) + 1 = 0 + 3 := by omega
          rw [summaryAfter_two items i st (some sres) br hget hn, heq,
            summaryAfter_done items i st sres br hget hn 0]
          simp [toRank, SummaryState.rank]
        · have heq : k + 3 + 1 = (k + 1) + 3 := by omega
          rw [heq, summaryAfter_done items i st sres br hget hn (k + 1),
            summaryAfter_done items i st sres br hget hn k]
    · rw [summaryAfter_skipped items i st osum br hget hn k,
        summaryAfter_skipped items i st osum br hget hn (k + 1)]
  · intro hget hn
    exact summaryAfter_skipped items i st osum br hget hn

/-- C1 witness: an out-of-bounds `SummaryStarted` is a no-op on a one-item
list, and along the producer sequence of an uncommitted status whose probe
answers, the rank does not decrease from prefix 1 to prefix 2. -/
theorem C1_summary_monotonic_under_producer_events_witness :
    ((SingleSelectApp.new [⟨"b", Option.none, SummaryState.none⟩]).apply
        (WorktreeUpdate.SummaryStarted 1))
      = SingleSelectApp.new [⟨"b", Option.none, SummaryState.none⟩]
    ∧ toRank (summaryAfter [⟨"b", Option.none, SummaryState.none⟩] 0
        ⟨false, true, false, 1, 0, 0, 0, 0⟩ (some "s") 1)
      ≤ toRank (summaryAfter [⟨"b", Option.none, SummaryState.none⟩] 0
        ⟨false, true, false, 1, 0, 0, 0, 0⟩ (some "s") 2) := by
  have h := C1_summary_monotonic_under_producer_events
    (SingleSelectApp.new [⟨"b", Option.none, SummaryState.none⟩])
    (WorktreeUpdate.SummaryStarted 1)
    [⟨"b", Option.none, SummaryState.none⟩] 0 "b"
    ⟨false, true, false, 1, 0, 0, 0, 0⟩ (some "s")
  exact ⟨h.2.1 (by decide), h.2.2.1 (by decide) 1⟩

